import Mathlib

/-!
# pumpbot: the transfer handlers of `src/routes/wallets.js`

A shallow embedding of `router.post("/transfer_one_to_many")` (fan-out),
`router.post("/transfer_many_to_one")` (fan-in), `router.post("/transfer")` and
`router.post("/create_many")`, followed by theorems about them.

Modelling conventions.

* JavaScript numbers are `JsNum`: a finite value, kept as an exact rational, or `NaN`.
  Rounding of IEEE doubles is not modelled; the two constants `0.000005 * LAMPORTS_PER_SOL`
  and `0.002 * LAMPORTS_PER_SOL` are `5000` and `2000000` in both readings.
* The collaborators (`db`, `Keypair.fromSecretKey`, `connection`, `performTransfer`) are the
  fields of `Env`. `performTransfer` is called but not defined in the source file, so it is a
  parameter: an oracle giving, for the wallet at a position of the wallet list, either the
  signature of the receipt or the message of the error thrown.
* An `async` callback runs synchronously up to its first `await`. `batch.map(async ...)`
  therefore runs the synchronous prefix of every callback in index order before any awaited
  call settles, and `Promise.all` returns the results in index order. `processBatch` is
  embedded as these two phases; `settleInOrder` and `promiseAll` spell out the filling of
  the results array for an arbitrary settling order.
* A handler run is a `Run`: the HTTP response together with the log of collaborator calls.
* `Scheduler` is the batch loop at the granularity of awaited calls: a state machine over
  the phases of the callbacks, one step per call that settles, in any order.
-/

namespace Pumpbot

/-! ## JavaScript values -/

/-- A JavaScript number: finite (an exact rational here) or `NaN`. -/
inductive JsNum where
  | fin (q : ℚ)
  | nan
  deriving DecidableEq

namespace JsNum

/-- The operator `*`. -/
def mul : JsNum → JsNum → JsNum
  | fin a, fin b => fin (a * b)
  | _, _ => nan

/-- The operator `-`. -/
def sub : JsNum → JsNum → JsNum
  | fin a, fin b => fin (a - b)
  | _, _ => nan

/-- The operator `+`. -/
def add : JsNum → JsNum → JsNum
  | fin a, fin b => fin (a + b)
  | _, _ => nan

/-- The operator `/`. A zero divisor gives `NaN` here (JavaScript gives `NaN` or an infinity);
the handlers divide only by `wallets.length` after the `wallets.length === 0` guard. -/
def div : JsNum → JsNum → JsNum
  | fin a, fin b => if b = 0 then nan else fin (a / b)
  | _, _ => nan

/-- The function `Math.floor`. -/
def floor : JsNum → JsNum
  | fin a => fin (⌊a⌋ : ℤ)
  | nan => nan

/-- The function `Math.min` of two arguments: `NaN` when either argument is `NaN`. -/
def min : JsNum → JsNum → JsNum
  | fin a, fin b => fin (Min.min a b)
  | _, _ => nan

/-- The comparison `<=`: false when either side is `NaN`. -/
def le : JsNum → JsNum → Bool
  | fin a, fin b => decide (a ≤ b)
  | _, _ => false

/-- The comparison `>`: false when either side is `NaN`. -/
def gt : JsNum → JsNum → Bool
  | fin a, fin b => decide (b < a)
  | _, _ => false

end JsNum

/-- The values of the `percentage` field of a request body covered here: missing
(`undefined`), `null`, a boolean or a JSON number. -/
inductive JsValue where
  | undefined
  | null
  | boolean (b : Bool)
  | number (q : ℚ)
  deriving DecidableEq

/-- The abstract operation `ToNumber`, applied by `<=`, `>` and `*` to their operands. -/
def JsValue.toNumber : JsValue → JsNum
  | .undefined => .nan
  | .null => .fin 0
  | .boolean true => .fin 1
  | .boolean false => .fin 0
  | .number q => .fin q

/-- Truthiness of a string field that may be missing: `!x` is false exactly when the field is
present and not the empty string. -/
def truthy : Option String → Bool
  | some s => s != ""
  | none => false

/-! ## Data model and collaborators -/

/-- A document of the `wallets` collection. -/
structure Wallet where
  sub : String
  publicKey : String
  secretKey : String
  deriving DecidableEq

/-- The argument object of `performTransfer` (the `connection` field is the module constant). -/
structure TransferArgs where
  senderSecretKey : String
  recipientAddress : String
  amount : JsNum
  deriving DecidableEq

/-- The collaborators of a handler run. An `Except.error msg` is a thrown error with that
message. -/
structure Env where
  /-- The `wallets` collection, in the order `find(...).toArray()` returns documents. -/
  store : List Wallet
  /-- The expression
  `Keypair.fromSecretKey(Uint8Array.from(key.split(",").map(Number))).publicKey.toBase58()`. -/
  publicKeyOf : String → Except String String
  /-- The call `connection.getBalance(new PublicKey(publicKey))`, in lamports. -/
  getBalance : String → Except String ℕ
  /-- The call `connection.getMinimumBalanceForRentExemption(0)`. -/
  getMinimumBalanceForRentExemption : Except String ℕ
  /-- The call `performTransfer(args)` made for the wallet at the given position of the
  wallet list: the `signature` of the returned receipt, or the thrown error. -/
  performTransfer : ℕ → TransferArgs → Except String String

/-- A collaborator call made during a run. -/
inductive Effect where
  | getBalance (publicKey : String)
  | getMinimumBalanceForRentExemption
  | performTransfer (args : TransferArgs)
  | sleep (ms : ℕ)
  deriving DecidableEq

/-- An element of `transferResults`: a JavaScript object, each property present or absent.
Fan-out success entries set `masterPublicKey`, `recipient`, `signature`, `amountSent`;
fan-in success entries set `publicKey`, `signature`; failure entries set `error`. -/
structure Entry where
  masterPublicKey : Option String
  recipient : Option String
  publicKey : Option String
  signature : Option String
  amountSent : Option JsNum
  error : Option String
  deriving DecidableEq

/-- The HTTP response of a handler: an error object with its status, the summary of the
batch handlers, or the answer of `/transfer`. -/
inductive Response where
  | error (status : ℕ) (error : String)
  | ok (message : String) (transfers : List Entry) (failedTransfers : List Entry)
  | transferred (message : String) (signature : String)
  deriving DecidableEq

/-- A handler run: the response and the collaborator calls made, in order. -/
structure Run where
  response : Response
  log : List Effect
  deriving DecidableEq

/-- The request body of `/transfer_one_to_many`. -/
structure FanOutBody where
  sub : Option String
  masterWalletSecretKey : Option String
  percentage : JsValue

/-- The request body of `/transfer_many_to_one`. -/
structure FanInBody where
  sub : Option String
  recipientAddress : Option String
  percentage : JsValue

/-! ## Shared pieces -/

/-- The constant `LAMPORTS_PER_SOL` of `@solana/web3.js`. -/
def LAMPORTS_PER_SOL : JsNum := .fin 1000000000

/-- The constant `batchSize` of both transfer handlers. -/
def batchSize : ℕ := 10

/-- The constant `rateLimitMs` of both transfer handlers. -/
def rateLimitMs : ℕ := 100

/-- The method `Array.prototype.slice(start, end)` for indices within `0 ≤ start ≤ end`. -/
def slice (xs : List α) (start stop : ℕ) : List α :=
  (xs.take stop).drop start

/-- The query `db.collection("wallets").find({ sub }).toArray()`. -/
def find (store : List Wallet) (sub : String) : List Wallet :=
  store.filter (fun w => w.sub == sub)

/-- The query `db.collection("wallets").findOne({ publicKey, sub })`. -/
def findOne (store : List Wallet) (publicKey sub : String) : Option Wallet :=
  store.find? (fun w => w.publicKey == publicKey && w.sub == sub)

/-- The loop `for (let i = 0; i < wallets.length; i += batchSize)` with the body
`batch = wallets.slice(i, i + batchSize); processBatch(batch, Math.floor(i / batchSize))`
followed by `sleep`, both folded into `body`. The first argument bounds the number of
iterations; `wallets.length` iterations always suffice because `batchSize > 0`. -/
def forEachBatch (body : σ → List α → ℕ → σ) (wallets : List α) : ℕ → ℕ → σ → σ
  | 0, _, s => s
  | fuel + 1, i, s =>
    if i < wallets.length then
      forEachBatch body wallets fuel (i + batchSize)
        (body s (slice wallets i (i + batchSize)) (i / batchSize))
    else s

/-- The batches the loop hands to `processBatch`, in order. -/
def batches (wallets : List α) : List (List α) :=
  forEachBatch (fun acc batch _ => acc ++ [batch]) wallets wallets.length 0 []

/-- The map `xs.map((x, index) => f(k + index, x))`. -/
def mapFrom (f : ℕ → α → β) : ℕ → List α → List β
  | _, [] => []
  | k, x :: xs => f k x :: mapFrom f (k + 1) xs

/-- The filter `(result) => result && result.signature`. -/
def hasSignature (result : Entry) : Bool :=
  truthy result.signature

/-- The filter `(result) => result && result.error`. -/
def hasError (result : Entry) : Bool :=
  truthy result.error

/-- The amounts of the `performTransfer` calls of a log, in order. -/
def transferAmounts : List Effect → List JsNum
  | [] => []
  | .performTransfer args :: log => args.amount :: transferAmounts log
  | _ :: log => transferAmounts log

/-- The `performTransfer` calls of a log, in order. -/
def transferCalls : List Effect → List TransferArgs
  | [] => []
  | .performTransfer args :: log => args :: transferCalls log
  | _ :: log => transferCalls log

/-- The public keys of the `getBalance` calls of a log, in order. -/
def balanceLookups : List Effect → List String
  | [] => []
  | .getBalance key :: log => key :: balanceLookups log
  | _ :: log => balanceLookups log

/-! ## The handler of `/transfer_one_to_many` -/

/-- The constant `transactionFee = 0.000005 * LAMPORTS_PER_SOL` of the fan-out handler. -/
def fanOutTransactionFee : JsNum := JsNum.mul (.fin 0.000005) LAMPORTS_PER_SOL

/-- The constant `rentExemptionBuffer = 0.002 * LAMPORTS_PER_SOL`. -/
def rentExemptionBuffer : JsNum := JsNum.mul (.fin 0.002) LAMPORTS_PER_SOL

/-- The expression `masterBalance * percentage - transactionFee`. -/
def amountToDistribute (masterBalance percentage transactionFee : JsNum) : JsNum :=
  JsNum.sub (JsNum.mul masterBalance percentage) transactionFee

/-- The expression `Math.floor(amountToDistribute / wallets.length)`. -/
def maxAmount (amountToDistribute : JsNum) (length : ℕ) : JsNum :=
  JsNum.floor (JsNum.div amountToDistribute (.fin length))

/-- The mutable variables of the fan-out handler that `processBatch` updates, and the log. -/
structure FanOutState where
  remainingAmount : JsNum
  transferResults : List Entry
  log : List Effect

/-- The synchronous prefixes of the callbacks of `batch.map(async (wallet, index) => ...)`,
run in index order: each reads `remainingAmount`, takes
`amountToSend = Math.min(maxAmount, remainingAmount)`, subtracts it and reaches
`await performTransfer(...)`. Returns the pending calls and the final `remainingAmount`. -/
def dispatch (maxAmount : JsNum) : List Wallet → JsNum → List (Wallet × JsNum) × JsNum
  | [], remainingAmount => ([], remainingAmount)
  | wallet :: batch, remainingAmount =>
    let amountToSend := JsNum.min maxAmount remainingAmount
    let rest := dispatch maxAmount batch (JsNum.sub remainingAmount amountToSend)
    ((wallet, amountToSend) :: rest.1, rest.2)

/-- The argument object of the fan-out `performTransfer` call for a pending item. -/
def fanOutArgs (masterWalletSecretKey : String) (pending : Wallet × JsNum) : TransferArgs :=
  { senderSecretKey := masterWalletSecretKey
    recipientAddress := pending.1.publicKey
    amount := pending.2 }

/-- The entry a fan-out callback returns once its `performTransfer` call has settled: the
success object, or the object of the `catch` block. Nothing is added back to
`remainingAmount` in the `catch` block. -/
def fanOutSettle (env : Env) (masterPublicKey masterWalletSecretKey : String) (position : ℕ)
    (pending : Wallet × JsNum) : Entry :=
  match env.performTransfer position (fanOutArgs masterWalletSecretKey pending) with
  | .ok signature =>
    { masterPublicKey := some masterPublicKey
      recipient := some pending.1.publicKey
      publicKey := none
      signature := some signature
      amountSent := some pending.2
      error := none }
  | .error message =>
    { masterPublicKey := none
      recipient := none
      publicKey := none
      signature := none
      amountSent := none
      error := some ("Failed to transfer to wallet " ++ pending.1.publicKey ++ ": " ++ message) }

/-- The function `processBatch` of the fan-out handler followed by `sleep(rateLimitMs)`:
dispatch every callback, collect the results of `Promise.all` in index order, push them. -/
def fanOutProcessBatch (env : Env) (masterPublicKey masterWalletSecretKey : String)
    (maxAmount : JsNum) (s : FanOutState) (batch : List Wallet) (batchIndex : ℕ) :
    FanOutState :=
  let started := dispatch maxAmount batch s.remainingAmount
  let batchResults :=
    mapFrom (fanOutSettle env masterPublicKey masterWalletSecretKey) (batchIndex * batchSize)
      started.1
  { remainingAmount := started.2
    transferResults := s.transferResults ++ batchResults
    log := s.log ++ started.1.map (fun pending =>
        Effect.performTransfer (fanOutArgs masterWalletSecretKey pending))
      ++ [Effect.sleep rateLimitMs] }

/-- The part of the fan-out handler from `maxAmount` to the end of the batch loop, for a
distributable total and a wallet list. -/
def distribute (env : Env) (masterPublicKey masterWalletSecretKey : String)
    (amountToDistribute : JsNum) (wallets : List Wallet) : FanOutState :=
  forEachBatch
    (fanOutProcessBatch env masterPublicKey masterWalletSecretKey
      (maxAmount amountToDistribute wallets.length))
    wallets wallets.length 0
    { remainingAmount := amountToDistribute, transferResults := [], log := [] }

/-- The final `res.json` of both transfer handlers: partition `transferResults`. -/
def summary (suffix : String) (transferResults : List Entry) : Response :=
  let successfulTransfers := transferResults.filter hasSignature
  .ok (toString successfulTransfers.length ++ suffix) successfulTransfers
    (transferResults.filter hasError)

/-- The handler `router.post("/transfer_one_to_many")`. -/
def transferOneToMany (env : Env) (body : FanOutBody) : Run :=
  let percentage := body.percentage.toNumber
  if !truthy body.sub || !truthy body.masterWalletSecretKey
      || JsNum.le percentage (.fin 0) || JsNum.gt percentage (.fin 1) then
    { response := .error 400
        "Missing sub parameter or invalid master wallet secret key or percentage."
      log := [] }
  else
    let sub := body.sub.getD ""
    let masterWalletSecretKey := body.masterWalletSecretKey.getD ""
    match env.publicKeyOf masterWalletSecretKey with
    | .error message => { response := .error 500 message, log := [] }
    | .ok masterPublicKey =>
      match findOne env.store masterPublicKey sub with
      | none =>
        { response := .error 403
            "Unauthorized access. Master wallet does not belong to the user."
          log := [] }
      | some _ =>
        match env.getBalance masterPublicKey with
        | .error message =>
          { response := .error 500 message, log := [.getBalance masterPublicKey] }
        | .ok masterBalance =>
          let amount := amountToDistribute (.fin masterBalance) percentage fanOutTransactionFee
          if JsNum.le amount rentExemptionBuffer then
            { response := .error 400
                "Master wallet balance is too low for the requested distribution."
              log := [.getBalance masterPublicKey] }
          else
            let wallets := find env.store sub
            if wallets.length = 0 then
              { response := .error 404 "No wallets found for the user."
                log := [.getBalance masterPublicKey] }
            else
              let final := distribute env masterPublicKey masterWalletSecretKey amount wallets
              { response := summary " wallets successfully received funds." final.transferResults
                log := .getBalance masterPublicKey :: final.log }

/-! ## The handler of `/transfer_many_to_one` -/

/-- The constant `transactionFee = 5000` of the fan-in handler. -/
def fanInTransactionFee : JsNum := .fin 5000

/-- What a fan-in callback does after its balance lookup returned `balance`: `none` is
`return null` (the account is skipped), `some amount` is a `performTransfer` call of
`lamportsToTransfer = amount`. -/
def lamportsToTransfer (rentExemptionAmount transactionFee percentage balance : JsNum) :
    Option JsNum :=
  let minRequiredBalance := JsNum.add rentExemptionAmount transactionFee
  let transferableBalance := JsNum.sub balance minRequiredBalance
  if JsNum.le transferableBalance (.fin 0) then none
  else
    let lamportsToTransfer := JsNum.floor (JsNum.mul transferableBalance percentage)
    if JsNum.le lamportsToTransfer (.fin 0) then none
    else some lamportsToTransfer

/-- The `performTransfer` call a fan-in callback makes for a wallet, if any. -/
def fanInCall (env : Env) (recipientAddress : String)
    (rentExemptionAmount transactionFee percentage : JsNum) (wallet : Wallet) :
    Option TransferArgs :=
  match env.getBalance wallet.publicKey with
  | .error _ => none
  | .ok balance =>
    (lamportsToTransfer rentExemptionAmount transactionFee percentage (.fin balance)).map
      (fun amount =>
        { senderSecretKey := wallet.secretKey
          recipientAddress := recipientAddress
          amount := amount })

/-- The failure object of the `catch` block of a fan-in callback. -/
def fanInFailure (wallet : Wallet) (message : String) : Entry :=
  { masterPublicKey := none
    recipient := none
    publicKey := none
    signature := none
    amountSent := none
    error := some ("Failed to transfer from wallet " ++ wallet.publicKey ++ ": " ++ message) }

/-- The value a fan-in callback returns for the wallet at a position: `none` for
`return null`, the success object, or the object of the `catch` block (reached when the
balance lookup or `performTransfer` throws). -/
def fanInItem (env : Env) (recipientAddress : String)
    (rentExemptionAmount transactionFee percentage : JsNum) (position : ℕ) (wallet : Wallet) :
    Option Entry :=
  match env.getBalance wallet.publicKey with
  | .error message => some (fanInFailure wallet message)
  | .ok balance =>
    match lamportsToTransfer rentExemptionAmount transactionFee percentage (.fin balance) with
    | none => none
    | some amount =>
      match env.performTransfer position
          { senderSecretKey := wallet.secretKey
            recipientAddress := recipientAddress
            amount := amount } with
      | .ok signature =>
        some
          { masterPublicKey := none
            recipient := none
            publicKey := some wallet.publicKey
            signature := some signature
            amountSent := none
            error := none }
      | .error message => some (fanInFailure wallet message)

/-- The mutable variable of the fan-in handler that `processBatch` updates, and the log. -/
structure FanInState where
  transferResults : List Entry
  log : List Effect

/-- The function `processBatch` of the fan-in handler followed by `sleep(rateLimitMs)`. Every
callback starts its balance lookup synchronously, in index order; the `performTransfer`
calls follow as the lookups settle and are logged in index order. The results of
`Promise.all` are in index order and the `null` ones are filtered out before the push. -/
def fanInProcessBatch (env : Env) (recipientAddress : String)
    (rentExemptionAmount transactionFee percentage : JsNum) (s : FanInState)
    (batch : List Wallet) (batchIndex : ℕ) : FanInState :=
  let batchResults :=
    mapFrom (fanInItem env recipientAddress rentExemptionAmount transactionFee percentage)
      (batchIndex * batchSize) batch
  { transferResults := s.transferResults ++ batchResults.filterMap id
    log := s.log ++ batch.map (fun wallet => Effect.getBalance wallet.publicKey)
      ++ (batch.filterMap
          (fanInCall env recipientAddress rentExemptionAmount transactionFee percentage)).map
        Effect.performTransfer
      ++ [Effect.sleep rateLimitMs] }

/-- The batch loop of the fan-in handler for given reserve, fee and fraction. -/
def collect (env : Env) (recipientAddress : String)
    (rentExemptionAmount transactionFee percentage : JsNum) (wallets : List Wallet) :
    FanInState :=
  forEachBatch
    (fanInProcessBatch env recipientAddress rentExemptionAmount transactionFee percentage)
    wallets wallets.length 0 { transferResults := [], log := [] }

/-- The handler `router.post("/transfer_many_to_one")`. -/
def transferManyToOne (env : Env) (body : FanInBody) : Run :=
  let percentage := body.percentage.toNumber
  if !truthy body.sub || !truthy body.recipientAddress
      || JsNum.le percentage (.fin 0) || JsNum.gt percentage (.fin 1) then
    { response := .error 400
        "Missing sub parameter or invalid recipientAddress or percentage."
      log := [] }
  else
    let sub := body.sub.getD ""
    let recipientAddress := body.recipientAddress.getD ""
    let wallets := find env.store sub
    if wallets.length = 0 then
      { response := .error 404 "No wallets found for the user.", log := [] }
    else
      match env.getMinimumBalanceForRentExemption with
      | .error message =>
        { response := .error 500 message, log := [.getMinimumBalanceForRentExemption] }
      | .ok rentExemptionAmount =>
        let final :=
          collect env recipientAddress (.fin rentExemptionAmount) fanInTransactionFee percentage
            wallets
        { response := summary " wallets successfully transferred funds." final.transferResults
          log := .getMinimumBalanceForRentExemption :: final.log }

/-! ## Specification-side definitions and sample data -/

/-- The sequential reference allocation, following the specification's words: each of the
`n` remaining recipients in turn receives `min(C, remaining)`, and `remaining` is
decremented by that amount before the next recipient is considered. -/
def referenceAllocation (C : ℚ) : ℕ → ℚ → List ℚ
  | 0, _ => []
  | n + 1, remaining =>
    let amount := min C remaining
    amount :: referenceAllocation C n (remaining - amount)

/-- The reference plan for a distributable total `D` and `N` recipients: cap
`C = floor(D / N)` and `remaining_0 = D`. -/
def sequentialPlan (D : ℚ) (N : ℕ) : List ℚ :=
  referenceAllocation (⌊D / N⌋ : ℤ) N D

/-- A fan-out request that passes validation, key parsing, the ownership check and the
balance lookup: `sub` and the secret key are non-empty strings, the key parses to
`masterPublicKey`, that key is stored under `sub`, and the balance lookup returns
`masterBalance`. -/
def FanOutAuthorised (env : Env) (sub masterWalletSecretKey masterPublicKey : String)
    (masterBalance : ℕ) : Prop :=
  sub ≠ "" ∧ masterWalletSecretKey ≠ "" ∧
    env.publicKeyOf masterWalletSecretKey = .ok masterPublicKey ∧
    (findOne env.store masterPublicKey sub).isSome = true ∧
    env.getBalance masterPublicKey = .ok masterBalance

/-- Sample wallets of the user `"u"`. -/
def sampleWallets : List Wallet :=
  [ { sub := "u", publicKey := "M", secretKey := "m" },
    { sub := "u", publicKey := "A", secretKey := "a" },
    { sub := "u", publicKey := "B", secretKey := "b" } ]

/-- A sample environment: three wallets of user `"u"`, the first being the master wallet
with key `"m"`; every balance is `balance`; every transfer succeeds with signature `"sig"`. -/
def sampleEnv (balance : ℕ) : Env :=
  { store := sampleWallets
    publicKeyOf := fun key => if key = "m" then .ok "M" else .error "bad secret key size"
    getBalance := fun _ => .ok balance
    getMinimumBalanceForRentExemption := .ok 890880
    performTransfer := fun _ _ => .ok "sig" }

/-- The two source accounts of the fan-in scenario. -/
def scenarioWallets : List Wallet :=
  [ { sub := "u", publicKey := "S1", secretKey := "s1" },
    { sub := "u", publicKey := "S2", secretKey := "s2" } ]

/-- The environment of the fan-in scenario: balances 1000 and 50, reserve 200; every
transfer succeeds with signature `"sig"`. -/
def scenarioEnv : Env :=
  { store := scenarioWallets
    publicKeyOf := fun _ => .error "bad secret key size"
    getBalance := fun key => if key = "S1" then .ok 1000 else .ok 50
    getMinimumBalanceForRentExemption := .ok 200
    performTransfer := fun _ _ => .ok "sig" }

/-- The sample environment with an executor whose receipts carry an empty signature. -/
def silentEnv (balance : ℕ) : Env :=
  { sampleEnv balance with performTransfer := fun _ _ => .ok "" }

/-- The environment in which the `performTransfer` call for the wallet at position `j`
throws an error with the given message, every other collaborator call being as in `env`. -/
def Env.withTransferFailure (env : Env) (j : ℕ) (message : String) : Env :=
  { env with
    performTransfer := fun position args =>
      if position = j then .error message else env.performTransfer position args }

/-- The environment in which the balance lookup for `publicKey` throws an error with the
given message, every other collaborator call being as in `env`. -/
def Env.withBalanceFailure (env : Env) (publicKey message : String) : Env :=
  { env with
    getBalance := fun key => if key = publicKey then .error message else env.getBalance key }

/-- The sample environment with an empty `wallets` collection. -/
def emptyEnv : Env :=
  { sampleEnv 10000000 with store := [] }

/-- The durations of the `sleep` calls of a log, in order. -/
def sleeps : List Effect → List ℕ
  | [] => []
  | .sleep ms :: log => ms :: sleeps log
  | _ :: log => sleeps log

/-! ## Settling of the calls of a batch in an arbitrary order -/

/-- One awaited call of a batch settles: the callback at `index` returns its value
`f (k + index) x`, which `Promise.all` stores at `index` of its results array. An index
outside the batch changes nothing. -/
def settleStep (f : ℕ → α → β) (k : ℕ) (pending : List α) (slots : List (Option β))
    (index : ℕ) : List (Option β) :=
  match pending[index]? with
  | some x => slots.set index (some (f (k + index) x))
  | none => slots

/-- The results array of `Promise.all(batch.map(...))` after the calls have settled in the
given order of indices, starting from the array with every slot empty. -/
def settleInOrder (f : ℕ → α → β) (k : ℕ) (pending : List α) (order : List ℕ) :
    List (Option β) :=
  order.foldl (settleStep f k pending) (List.replicate pending.length none)

/-- The value of `await Promise.all(...)`: the results in index order once every slot is
filled; `none` while some callback has not returned. -/
def promiseAll : List (Option β) → Option (List β)
  | [] => some []
  | none :: _ => none
  | some v :: slots => (promiseAll slots).map (fun vs => v :: vs)

/-! ## The handler of `/transfer` -/

/-- The request body of `/transfer`. -/
structure TransferBody where
  sub : Option String
  senderSecretKey : Option String
  recipientAddress : Option String
  amount : JsValue

/-- The handler `router.post("/transfer")`. Its single `performTransfer` call is the call at
position 0 of the executor oracle. -/
def transfer (env : Env) (body : TransferBody) : Run :=
  let amount := body.amount.toNumber
  if !truthy body.sub || !truthy body.senderSecretKey || !truthy body.recipientAddress
      || JsNum.le amount (.fin 0) then
    { response := .error 400 "Invalid input parameters.", log := [] }
  else
    let sub := body.sub.getD ""
    let senderSecretKey := body.senderSecretKey.getD ""
    let recipientAddress := body.recipientAddress.getD ""
    match env.publicKeyOf senderSecretKey with
    | .error message => { response := .error 500 message, log := [] }
    | .ok senderPublicKey =>
      match findOne env.store senderPublicKey sub with
      | none =>
        { response := .error 403
            "Unauthorized transfer attempt. Wallet does not belong to the user."
          log := [] }
      | some _ =>
        let lamports := JsNum.floor (JsNum.mul amount LAMPORTS_PER_SOL)
        let args : TransferArgs :=
          { senderSecretKey := senderSecretKey
            recipientAddress := recipientAddress
            amount := lamports }
        match env.performTransfer 0 args with
        | .ok signature =>
          { response := .transferred "Transfer successful." signature
            log := [.performTransfer args] }
        | .error message =>
          { response := .error 500 message, log := [.performTransfer args] }

/-! ## The handler of `/create_many` -/

/-- The values of `req.body.wallet_quantity` covered here: missing, `null`, a JSON number,
or a JSON object whose `sub` property is a string or missing. -/
inductive QuantityField where
  | undefined
  | null
  | number (q : ℚ)
  | object (sub : Option String) (wallet_quantity : JsValue)

/-- The destructuring `const { sub, wallet_quantity } = req.body.wallet_quantity`: `none`
is the `TypeError` thrown for `undefined` and `null`; a number has neither property, so
both variables are `undefined`. -/
def QuantityField.destructure : QuantityField → Option (Option String × JsValue)
  | .undefined => none
  | .null => none
  | .number _ => some (none, .undefined)
  | .object sub wallet_quantity => some (sub, wallet_quantity)

/-- Truthiness of a value: `!x` is false exactly for `true` and the non-zero numbers. -/
def JsValue.truthy : JsValue → Bool
  | .undefined => false
  | .null => false
  | .boolean b => b
  | .number q => q != 0

/-- The request body of `/create_many`. -/
structure CreateManyBody where
  wallet_quantity : QuantityField
  tokenMintAddress : Option String

/-- The collaborators of `/create_many`. -/
structure CreateEnv where
  /-- The constructor call `new PublicKey(address)`, which throws on a malformed address. -/
  parseMint : String → Except String String
  /-- The part of `createWallet` after its `!sub` check, for the task at a position:
  `Keypair.generate()` and the creation of the token account; the public and the secret
  key of the new wallet, or the thrown error. -/
  generate : ℕ → String → Except String (String × String)

/-- A collaborator call made by `/create_many`. -/
inductive CreateEffect where
  | sleep (ms : ℕ)
  | createWallet (sub : Option String) (tokenMintAddress : String)
  | insertMany (wallets : List Wallet)
  deriving DecidableEq

/-- The outcome of `/create_many`: `rejected` when the handler throws outside its `try`
block and sends nothing, an error object with its status, or the success object. -/
inductive CreateResponse where
  | rejected (message : String)
  | error (status : ℕ) (error : String)
  | created (message : String) (walletsCreated : ℕ)
  deriving DecidableEq

/-- A run of `/create_many`. -/
structure CreateRun where
  response : CreateResponse
  log : List CreateEffect
  deriving DecidableEq

/-- The constant `USDC_MINT_ADDRESS`. -/
def USDC_MINT_ADDRESS : String := "EPjFWdd5AufqSSqeM2qN1xzybapC8G4wEGGkZwyTDt1v"

/-- The function `createWallet(sub, tokenMintAddress, connection, db)` called by the task at
a position. -/
def createWallet (env : CreateEnv) (sub : Option String) (tokenMintAddress : String)
    (position : ℕ) : Except String Wallet :=
  if !truthy sub then .error "Missing user sub parameter."
  else
    match env.generate position tokenMintAddress with
    | .error message => .error message
    | .ok keys => .ok { sub := sub.getD "", publicKey := keys.1, secretKey := keys.2 }

/-- The number of iterations of `for (let i = 0; i < wallet_quantity; i++)`. -/
def taskCount : JsNum → ℕ
  | .fin q => ⌈q⌉.toNat
  | .nan => 0

/-- The variables of `/create_many` that its batch loop updates: the collected wallets, the
error that made `Promise.all` reject (the loop is then left for the `catch` block), and
the log. -/
structure CreateState where
  wallets : List Wallet
  failure : Option String
  log : List CreateEffect

/-- The first thrown error among the results of a batch, in index order. -/
def firstError : List (Except String Wallet) → Option String
  | [] => none
  | .error message :: _ => some message
  | .ok _ :: results => firstError results

/-- The wallets among the results of a batch. -/
def createdWallets : List (Except String Wallet) → List Wallet
  | [] => []
  | .ok wallet :: results => wallet :: createdWallets results
  | .error _ :: results => createdWallets results

/-- One iteration of `while (tasks.length > 0)`: the batch `tasks.splice(0, batchSize)` runs
with task `index` started after `sleep(index * rateLimitMs)`; if a task throws,
`Promise.all` rejects and nothing is pushed. The error kept is that of the failing task
of least index. -/
def createProcessBatch (env : CreateEnv) (sub : Option String) (tokenMintAddress : String)
    (s : CreateState) (batch : List ℕ) (_batchIndex : ℕ) : CreateState :=
  match s.failure with
  | some _ => s
  | none =>
    let results := batch.map (createWallet env sub tokenMintAddress)
    let log := s.log
      ++ (List.range batch.length).map (fun index => CreateEffect.sleep (index * rateLimitMs))
      ++ batch.map (fun _ => CreateEffect.createWallet sub tokenMintAddress)
    match firstError results with
    | some message => { wallets := s.wallets, failure := some message, log := log }
    | none => { wallets := s.wallets ++ createdWallets results, failure := none, log := log }

/-- The handler `router.post("/create_many")`. -/
def createMany (env : CreateEnv) (body : CreateManyBody) : CreateRun :=
  match body.wallet_quantity.destructure with
  | none => { response := .rejected "TypeError", log := [] }
  | some (sub, wallet_quantity) =>
    if !wallet_quantity.truthy || JsNum.le wallet_quantity.toNumber (.fin 0) then
      { response := .error 400 "Invalid wallet_quantity.", log := [] }
    else
      match env.parseMint
          (if truthy body.tokenMintAddress then body.tokenMintAddress.getD ""
            else USDC_MINT_ADDRESS) with
      | .error message => { response := .error 500 message, log := [] }
      | .ok tokenMintAddress =>
        let tasks := List.range (taskCount wallet_quantity.toNumber)
        let final :=
          forEachBatch (createProcessBatch env sub tokenMintAddress) tasks tasks.length 0
            { wallets := [], failure := none, log := [] }
        match final.failure with
        | some message => { response := .error 500 message, log := final.log }
        | none =>
          { response := .created
              (toString final.wallets.length ++ " wallets created and saved to the database.")
              final.wallets.length
            log := final.log ++ [.insertMany final.wallets] }

/-- A sample environment for `/create_many`: every mint address parses and the task at
position `k` generates the keys `"P"` and `"s"`. -/
def sampleCreateEnv : CreateEnv :=
  { parseMint := fun address => .ok address
    generate := fun _ _ => .ok ("P", "s") }

/-! ## The batch scheduler at the granularity of awaited calls -/

/-- Where the callback of one wallet stands: its batch has not been reached; it awaits
`connection.getBalance` (fan-in only); it awaits `performTransfer`, so that its executor
call is in flight; or it has returned. -/
inductive Phase where
  | notStarted
  | lookup
  | transfer
  | settled
  deriving DecidableEq

/-- The phase of a callback after its awaited call settles. A fan-in callback whose lookup
settles goes on to `await performTransfer(...)` when it makes that call, and otherwise
returns (`return null` or the `catch` block); a callback whose `performTransfer` settles
returns. A callback that awaits nothing is unchanged. -/
def Phase.next (callsTransfer : Bool) : Phase → Phase
  | .notStarted => .notStarted
  | .lookup => if callsTransfer then .transfer else .settled
  | .transfer => .settled
  | .settled => .settled

/-- A state of the batch loop: the loop variable `i` and the phase of the callback of every
wallet position. -/
structure Scheduler where
  i : ℕ
  phase : ℕ → Phase

/-- The call `batch.map(async ...)` for `batch = wallets.slice(i, i + batchSize)`: every
callback of the batch runs to its first `await` and is then in phase `first` (`transfer`
in fan-out, `lookup` in fan-in). -/
def startBatch (first : Phase) (length i : ℕ) (phase : ℕ → Phase) : ℕ → Phase :=
  fun p => if i ≤ p ∧ p < i + batchSize ∧ p < length then first else phase p

/-- The state on entering the loop: `i = 0` and the first batch started. -/
def Scheduler.initial (first : Phase) (length : ℕ) : Scheduler :=
  { i := 0, phase := startBatch first length 0 (fun _ => .notStarted) }

/-- Whether every callback of the current batch has returned, so that
`await Promise.all(...)` resolves. -/
def Scheduler.batchSettled (length : ℕ) (s : Scheduler) : Bool :=
  (List.range batchSize).all
    (fun index => decide (length ≤ s.i + index) || decide (s.phase (s.i + index) = .settled))

/-- One event: the call awaited by the callback at position `p` settles. If that leaves the
whole current batch returned, `processBatch` returns, the loop sleeps, adds `batchSize` to
`i` and, while `i < wallets.length`, starts the next batch. Once the loop has ended
nothing happens any more. -/
def Scheduler.step (first : Phase) (callsTransfer : ℕ → Bool) (length : ℕ) (s : Scheduler)
    (p : ℕ) : Scheduler :=
  if s.i < length then
    let settledOne : Scheduler :=
      { i := s.i, phase := Function.update s.phase p ((s.phase p).next (callsTransfer p)) }
    if settledOne.batchSettled length then
      { i := s.i + batchSize
        phase := startBatch first length (s.i + batchSize) settledOne.phase }
    else settledOne
  else s

/-- The state after the awaited calls have settled in the order given by `schedule`. -/
def Scheduler.run (first : Phase) (callsTransfer : ℕ → Bool) (length : ℕ)
    (schedule : List ℕ) : Scheduler :=
  schedule.foldl (Scheduler.step first callsTransfer length) (Scheduler.initial first length)

/-- The number of executor calls in flight: the callbacks awaiting `performTransfer`. -/
def Scheduler.inFlight (length : ℕ) (s : Scheduler) : ℕ :=
  ((List.range length).filter (fun p => decide (s.phase p = .transfer))).length

/-- The scheduler of `/transfer_one_to_many` over a wallet list: every callback starts with
its executor call. -/
def fanOutScheduler (wallets : List Wallet) (schedule : List ℕ) : Scheduler :=
  Scheduler.run .transfer (fun _ => false) wallets.length schedule

/-- The scheduler of `/transfer_many_to_one` over a wallet list: every callback starts with
its balance lookup and makes an executor call exactly when `fanInCall` gives one. -/
def fanInScheduler (env : Env) (recipientAddress : String)
    (rentExemptionAmount transactionFee percentage : JsNum) (wallets : List Wallet)
    (schedule : List ℕ) : Scheduler :=
  Scheduler.run .lookup
    (fun p =>
      (wallets[p]?.bind
        (fanInCall env recipientAddress rentExemptionAmount transactionFee percentage)).isSome)
    wallets.length schedule

/-- The ordering invariant of the batch loop: `i` is a multiple of `batchSize`, every
callback before the current batch has returned, and no callback after the current batch
(or beyond the wallet list) has started. -/
def Scheduler.Ordered (length : ℕ) (s : Scheduler) : Prop :=
  s.i % batchSize = 0 ∧
    (∀ p, p < s.i → p < length → s.phase p = .settled) ∧
    (∀ p, s.i + batchSize ≤ p ∨ length ≤ p → s.phase p = .notStarted)

end Pumpbot

/-! # Theorems -/

namespace Pumpbot

/-! ## Lists, logs and the batch loop -/

theorem slice_length_le (xs : List α) (i b : ℕ) : (slice xs i (i + b)).length ≤ b := by
  simp [slice]
  omega

theorem slice_length (xs : List α) (i b : ℕ) :
    (slice xs i (i + b)).length = min b (xs.length - i) := by
  simp only [slice, List.length_drop, List.length_take]
  omega

theorem take_add_eq_take_append_slice (xs : List α) (i b : ℕ) :
    xs.take (i + b) = xs.take i ++ slice xs i (i + b) := by
  have h := List.take_append_drop i (xs.take (i + b))
  rw [List.take_take, Nat.min_eq_left (Nat.le_add_right i b)] at h
  exact h.symm

theorem mapFrom_append (f : ℕ → α → β) (k : ℕ) (xs ys : List α) :
    mapFrom f k (xs ++ ys) = mapFrom f k xs ++ mapFrom f (k + xs.length) ys := by
  induction xs generalizing k with
  | nil => simp [mapFrom]
  | cons x xs ih =>
    simp [mapFrom, ih]
    congr 1
    omega

theorem mapFrom_length (f : ℕ → α → β) (k : ℕ) (xs : List α) :
    (mapFrom f k xs).length = xs.length := by
  induction xs generalizing k with
  | nil => rfl
  | cons x xs ih => simp [mapFrom, ih]

theorem transferCalls_append (xs ys : List Effect) :
    transferCalls (xs ++ ys) = transferCalls xs ++ transferCalls ys := by
  induction xs with
  | nil => rfl
  | cons e xs ih => cases e <;> simp [transferCalls, ih]

theorem transferCalls_map_performTransfer (calls : List TransferArgs) :
    transferCalls (calls.map Effect.performTransfer) = calls := by
  induction calls with
  | nil => rfl
  | cons c calls ih => simp [transferCalls, ih]

theorem transferCalls_cons_rent (log : List Effect) :
    transferCalls (.getMinimumBalanceForRentExemption :: log) = transferCalls log := rfl

theorem transferCalls_cons_getBalance (publicKey : String) (log : List Effect) :
    transferCalls (.getBalance publicKey :: log) = transferCalls log := rfl

theorem transferCalls_map (f : α → TransferArgs) (xs : List α) :
    transferCalls (xs.map (fun x => Effect.performTransfer (f x))) = xs.map f := by
  induction xs with
  | nil => rfl
  | cons x xs ih => simp [transferCalls, ih]

theorem transferAmounts_eq_map (log : List Effect) :
    transferAmounts log = (transferCalls log).map TransferArgs.amount := by
  induction log with
  | nil => rfl
  | cons e log ih => cases e <;> simp [transferAmounts, transferCalls, ih]

theorem balanceLookups_append (xs ys : List Effect) :
    balanceLookups (xs ++ ys) = balanceLookups xs ++ balanceLookups ys := by
  induction xs with
  | nil => rfl
  | cons e xs ih => cases e <;> simp [balanceLookups, ih]

/-- Loop rule for `forEachBatch`: a property of (number of wallets consumed, state) that
every iteration preserves holds at the end with all wallets consumed, provided the bound
on the iterations is at least the number of wallets left. -/
theorem forEachBatch_invariant (body : σ → List α → ℕ → σ) (wallets : List α)
    (P : ℕ → σ → Prop)
    (hstep : ∀ i s, i % batchSize = 0 → i < wallets.length → P i s →
      P (i + batchSize) (body s (slice wallets i (i + batchSize)) (i / batchSize))) :
    ∀ fuel i s, i % batchSize = 0 → wallets.length ≤ i + fuel → P i s →
      ∃ j, wallets.length ≤ j ∧ P j (forEachBatch body wallets fuel i s) := by
  intro fuel
  induction fuel with
  | zero =>
    intro i s _ hlen hP
    exact ⟨i, by simpa using hlen, by simpa [forEachBatch] using hP⟩
  | succ fuel ih =>
    intro i s hmod hlen hP
    by_cases hi : i < wallets.length
    · simp only [forEachBatch, hi, if_true]
      apply ih
      · simp [batchSize] at hmod ⊢
        omega
      · simp [batchSize]
        omega
      · exact hstep i s hmod hi hP
    · simp only [forEachBatch, hi, if_false]
      exact ⟨i, by omega, hP⟩

/-! ## Arithmetic of `JsNum` on finite values -/

@[simp] theorem JsNum.mul_fin (a b : ℚ) : JsNum.mul (.fin a) (.fin b) = .fin (a * b) := rfl

@[simp] theorem JsNum.sub_fin (a b : ℚ) : JsNum.sub (.fin a) (.fin b) = .fin (a - b) := rfl

@[simp] theorem JsNum.add_fin (a b : ℚ) : JsNum.add (.fin a) (.fin b) = .fin (a + b) := rfl

@[simp] theorem JsNum.min_fin (a b : ℚ) : JsNum.min (.fin a) (.fin b) = .fin (Min.min a b) := rfl

@[simp] theorem JsNum.floor_fin (a : ℚ) : JsNum.floor (.fin a) = .fin (⌊a⌋ : ℤ) := rfl

@[simp] theorem JsNum.le_fin (a b : ℚ) : JsNum.le (.fin a) (.fin b) = decide (a ≤ b) := rfl

@[simp] theorem JsNum.gt_fin (a b : ℚ) : JsNum.gt (.fin a) (.fin b) = decide (b < a) := rfl

theorem JsNum.div_fin (a b : ℚ) (hb : b ≠ 0) : JsNum.div (.fin a) (.fin b) = .fin (a / b) := by
  simp [JsNum.div, hb]

theorem fanOutTransactionFee_eq : fanOutTransactionFee = .fin 5000 := by
  simp only [fanOutTransactionFee, LAMPORTS_PER_SOL, JsNum.mul_fin]
  norm_num

theorem rentExemptionBuffer_eq : rentExemptionBuffer = .fin 2000000 := by
  simp only [rentExemptionBuffer, LAMPORTS_PER_SOL, JsNum.mul_fin]
  norm_num

theorem maxAmount_fin (D : ℚ) (n : ℕ) (hn : n ≠ 0) :
    maxAmount (.fin D) n = .fin (⌊D / n⌋ : ℤ) := by
  have h : (n : ℚ) ≠ 0 := by exact_mod_cast hn
  simp [maxAmount, JsNum.div_fin _ _ h]

/-! ## The fan-out batch loop as one pass over the wallet list -/

theorem dispatch_append (M : JsNum) (xs ys : List Wallet) (r : JsNum) :
    dispatch M (xs ++ ys) r =
      ((dispatch M xs r).1 ++ (dispatch M ys (dispatch M xs r).2).1,
        (dispatch M ys (dispatch M xs r).2).2) := by
  induction xs generalizing r with
  | nil => simp [dispatch]
  | cons x xs ih => simp [dispatch, ih]

theorem dispatch_length (M : JsNum) (xs : List Wallet) (r : JsNum) :
    (dispatch M xs r).1.length = xs.length := by
  induction xs generalizing r with
  | nil => rfl
  | cons x xs ih => simp [dispatch, ih]

theorem dispatch_wallets (M : JsNum) (xs : List Wallet) (r : JsNum) :
    (dispatch M xs r).1.map Prod.fst = xs := by
  induction xs generalizing r with
  | nil => rfl
  | cons x xs ih => simp [dispatch, ih]

/-- The fan-out batch loop computes what one pass over the whole wallet list computes: the
pending calls of `dispatch` on the full list, settled by position. -/
theorem distribute_eq (env : Env) (masterPublicKey key : String) (D : JsNum)
    (wallets : List Wallet) :
    (distribute env masterPublicKey key D wallets).remainingAmount
        = (dispatch (maxAmount D wallets.length) wallets D).2 ∧
      (distribute env masterPublicKey key D wallets).transferResults
        = mapFrom (fanOutSettle env masterPublicKey key) 0
            (dispatch (maxAmount D wallets.length) wallets D).1 ∧
      transferCalls (distribute env masterPublicKey key D wallets).log
        = (dispatch (maxAmount D wallets.length) wallets D).1.map (fanOutArgs key) := by
  have key_fact := forEachBatch_invariant
    (fanOutProcessBatch env masterPublicKey key (maxAmount D wallets.length)) wallets
    (fun j s =>
      s.remainingAmount = (dispatch (maxAmount D wallets.length) (wallets.take j) D).2 ∧
      s.transferResults = mapFrom (fanOutSettle env masterPublicKey key) 0
        (dispatch (maxAmount D wallets.length) (wallets.take j) D).1 ∧
      transferCalls s.log
        = (dispatch (maxAmount D wallets.length) (wallets.take j) D).1.map (fanOutArgs key))
    (by
      intro i s hmod hi ⟨h1, h2, h3⟩
      have hpos : i / batchSize * batchSize = i := by
        simp [batchSize] at hmod ⊢
        omega
      have hlen : (wallets.take i).length = i := by
        simp
        omega
      refine ⟨?_, ?_, ?_⟩
      · simp [fanOutProcessBatch, take_add_eq_take_append_slice, dispatch_append, h1]
      · simp [fanOutProcessBatch, take_add_eq_take_append_slice, dispatch_append, h1, h2,
          mapFrom_append, dispatch_length, hlen, hpos]
      · simp [fanOutProcessBatch, take_add_eq_take_append_slice, dispatch_append, h1, h3,
          transferCalls_append, transferCalls, transferCalls_map])
    wallets.length 0 { remainingAmount := D, transferResults := [], log := [] }
    (by simp) (by simp) (by simp [dispatch, mapFrom, transferCalls])
  obtain ⟨j, hj, h1, h2, h3⟩ := key_fact
  rw [List.take_of_length_le hj] at h1 h2 h3
  exact ⟨h1, h2, h3⟩

/-! ## The fan-out handler on an authorised request -/

theorem truthy_some (x : String) : truthy (some x) = true ↔ x ≠ "" := by
  simp [truthy]

theorem find_ne_nil_of_findOne (store : List Wallet) (publicKey sub : String)
    (h : (findOne store publicKey sub).isSome = true) : find store sub ≠ [] := by
  rw [findOne, List.find?_isSome] at h
  obtain ⟨w, hw, hp⟩ := h
  intro hnil
  have hmem : w ∈ find store sub := by
    simp only [find, List.mem_filter]
    refine ⟨hw, ?_⟩
    simp only [Bool.and_eq_true] at hp
    exact hp.2
  rw [hnil] at hmem
  exact List.not_mem_nil _ hmem

/-- An authorised fan-out request whose fraction `f` is a number in `(0, 1]` and whose
distributable total exceeds the rent buffer runs the batch loop over the wallets of `sub`
and answers with the summary. -/
theorem transferOneToMany_run (env : Env) (sub key masterPublicKey : String) (B : ℕ) (f : ℚ)
    (hauth : FanOutAuthorised env sub key masterPublicKey B) (hf0 : 0 < f) (hf1 : f ≤ 1)
    (hD : 2000000 < B * f - 5000) :
    transferOneToMany env
        { sub := some sub, masterWalletSecretKey := some key, percentage := .number f }
      = { response := summary " wallets successfully received funds."
            (distribute env masterPublicKey key (.fin (B * f - 5000))
              (find env.store sub)).transferResults
          log := .getBalance masterPublicKey ::
            (distribute env masterPublicKey key (.fin (B * f - 5000))
              (find env.store sub)).log } := by
  obtain ⟨hsub, hkey, hpk, hown, hbal⟩ := hauth
  have hne := find_ne_nil_of_findOne _ _ _ hown
  obtain ⟨w, hw⟩ := Option.isSome_iff_exists.mp hown
  have hlen : (find env.store sub).length ≠ 0 := by
    simpa [List.length_eq_zero] using hne
  simp [transferOneToMany, truthy, hsub, hkey, JsValue.toNumber, not_le.mpr hf0,
    not_lt.mpr hf1, hpk, hw, hbal, amountToDistribute, fanOutTransactionFee_eq,
    rentExemptionBuffer_eq, not_le.mpr hD, hlen, hf1, hf0]

/-! ## Fan-out allocation -/

theorem referenceAllocation_length (C : ℚ) (n : ℕ) (r : ℚ) :
    (referenceAllocation C n r).length = n := by
  induction n generalizing r with
  | zero => rfl
  | succ n ih => simp [referenceAllocation, ih]

theorem referenceAllocation_sum_le (C : ℚ) (n : ℕ) (r : ℚ) (hr : 0 ≤ r) :
    (referenceAllocation C n r).sum ≤ r := by
  induction n generalizing r with
  | zero => simpa [referenceAllocation] using hr
  | succ n ih =>
    have hmin : min C r ≤ r := min_le_right C r
    have h := ih (r - min C r) (sub_nonneg.mpr hmin)
    simp only [referenceAllocation, List.sum_cons]
    linarith

theorem dispatch_amounts (C r : ℚ) (xs : List Wallet) :
    (dispatch (.fin C) xs (.fin r)).1.map Prod.snd
      = (referenceAllocation C xs.length r).map JsNum.fin := by
  induction xs generalizing r with
  | nil => rfl
  | cons x xs ih => simp [dispatch, referenceAllocation, ih]

theorem dispatch_remaining (C r : ℚ) (xs : List Wallet) :
    (dispatch (.fin C) xs (.fin r)).2
      = .fin (r - (referenceAllocation C xs.length r).sum) := by
  induction xs generalizing r with
  | nil => simp [dispatch, referenceAllocation]
  | cons x xs ih =>
    simp only [dispatch, JsNum.min_fin, JsNum.sub_fin, ih, List.length_cons,
      referenceAllocation, List.sum_cons]
    congr 1
    ring

theorem dispatch_eq_zipWith (C r : ℚ) (xs : List Wallet) :
    (dispatch (.fin C) xs (.fin r)).1
      = List.zipWith (fun w a => (w, JsNum.fin a)) xs (referenceAllocation C xs.length r) := by
  induction xs generalizing r with
  | nil => rfl
  | cons x xs ih => simp [dispatch, referenceAllocation, ih]

/-- The amounts of the `performTransfer` calls of the fan-out batch loop, for a finite
distributable total and at least one wallet, are the sequential reference plan. -/
theorem distribute_amounts (env : Env) (masterPublicKey key : String) (D : ℚ)
    (wallets : List Wallet) (hN : wallets ≠ []) :
    transferAmounts (distribute env masterPublicKey key (.fin D) wallets).log
      = (sequentialPlan D wallets.length).map JsNum.fin := by
  have hlen : wallets.length ≠ 0 := by simpa [List.length_eq_zero] using hN
  rw [transferAmounts_eq_map, (distribute_eq env masterPublicKey key (.fin D) wallets).2.2,
    maxAmount_fin D _ hlen, List.map_map, sequentialPlan, ← dispatch_amounts]
  rfl

theorem sampleEnv_authorised (balance : ℕ) :
    FanOutAuthorised (sampleEnv balance) "u" "m" "M" balance :=
  ⟨by decide, by decide, rfl, rfl, rfl⟩

theorem transferCalls_map_getBalance (f : α → String) (xs : List α) :
    transferCalls (xs.map (fun x => Effect.getBalance (f x))) = [] := by
  induction xs with
  | nil => rfl
  | cons x xs ih => simp [transferCalls, ih]

theorem balanceLookups_map_getBalance (f : α → String) (xs : List α) :
    balanceLookups (xs.map (fun x => Effect.getBalance (f x))) = xs.map f := by
  induction xs with
  | nil => rfl
  | cons x xs ih => simp [balanceLookups, ih]

theorem balanceLookups_map_performTransfer (calls : List TransferArgs) :
    balanceLookups (calls.map Effect.performTransfer) = [] := by
  induction calls with
  | nil => rfl
  | cons c calls ih => simp [balanceLookups, ih]

/-- The fan-in batch loop computes what one pass over the whole wallet list computes: the
non-null values of the callbacks by position, one balance lookup per wallet, and the
`performTransfer` calls of the wallets that are not skipped. -/
theorem collect_eq (env : Env) (recipientAddress : String) (r F p : JsNum)
    (wallets : List Wallet) :
    (collect env recipientAddress r F p wallets).transferResults
        = (mapFrom (fanInItem env recipientAddress r F p) 0 wallets).filterMap id ∧
      transferCalls (collect env recipientAddress r F p wallets).log
        = wallets.filterMap (fanInCall env recipientAddress r F p) ∧
      balanceLookups (collect env recipientAddress r F p wallets).log
        = wallets.map Wallet.publicKey := by
  have key_fact := forEachBatch_invariant
    (fanInProcessBatch env recipientAddress r F p) wallets
    (fun j s =>
      s.transferResults
        = (mapFrom (fanInItem env recipientAddress r F p) 0 (wallets.take j)).filterMap id ∧
      transferCalls s.log = (wallets.take j).filterMap (fanInCall env recipientAddress r F p) ∧
      balanceLookups s.log = (wallets.take j).map Wallet.publicKey)
    (by
      intro i s hmod hi ⟨h1, h2, h3⟩
      have hpos : i / batchSize * batchSize = i := by
        simp [batchSize] at hmod ⊢
        omega
      have hlen : (wallets.take i).length = i := by
        simp
        omega
      refine ⟨?_, ?_, ?_⟩
      · simp [fanInProcessBatch, take_add_eq_take_append_slice, h1, mapFrom_append, hlen,
          hpos]
      · simp [fanInProcessBatch, take_add_eq_take_append_slice, h2, transferCalls_append,
          transferCalls, transferCalls_map_getBalance, transferCalls_map_performTransfer]
      · simp [fanInProcessBatch, take_add_eq_take_append_slice, h3, balanceLookups_append,
          balanceLookups, balanceLookups_map_getBalance, balanceLookups_map_performTransfer])
    wallets.length 0 { transferResults := [], log := [] }
    (by simp) (by simp) (by simp [mapFrom, transferCalls, balanceLookups])
  obtain ⟨j, hj, h1, h2, h3⟩ := key_fact
  rw [List.take_of_length_le hj] at h1 h2 h3
  exact ⟨h1, h2, h3⟩

/-- A fan-in request that passes validation, with at least one wallet under `sub` and a
rent lookup returning `r`, runs the batch loop with reserve `r` and fee 5000 and answers
with the summary. -/
theorem transferManyToOne_run_of_valid (env : Env) (sub recipientAddress : String)
    (percentage : JsValue) (r : ℕ) (hsub : sub ≠ "") (hrcp : recipientAddress ≠ "")
    (hle : JsNum.le percentage.toNumber (.fin 0) = false)
    (hgt : JsNum.gt percentage.toNumber (.fin 1) = false)
    (hne : find env.store sub ≠ []) (hrent : env.getMinimumBalanceForRentExemption = .ok r) :
    transferManyToOne env
        { sub := some sub, recipientAddress := some recipientAddress,
          percentage := percentage }
      = { response := summary " wallets successfully transferred funds."
            (collect env recipientAddress (.fin r) fanInTransactionFee percentage.toNumber
              (find env.store sub)).transferResults
          log := .getMinimumBalanceForRentExemption ::
            (collect env recipientAddress (.fin r) fanInTransactionFee percentage.toNumber
              (find env.store sub)).log } := by
  have hlen : (find env.store sub).length ≠ 0 := by
    simpa [List.length_eq_zero] using hne
  simp [transferManyToOne, truthy, hsub, hrcp, hle, hgt, hrent, hlen]

/-- The same for a fraction `f` that is a number in `(0, 1]`. -/
theorem transferManyToOne_run (env : Env) (sub recipientAddress : String) (f : ℚ) (r : ℕ)
    (hsub : sub ≠ "") (hrcp : recipientAddress ≠ "") (hf0 : 0 < f) (hf1 : f ≤ 1)
    (hne : find env.store sub ≠ []) (hrent : env.getMinimumBalanceForRentExemption = .ok r) :
    transferManyToOne env
        { sub := some sub, recipientAddress := some recipientAddress, percentage := .number f }
      = { response := summary " wallets successfully transferred funds."
            (collect env recipientAddress (.fin r) fanInTransactionFee (.fin f)
              (find env.store sub)).transferResults
          log := .getMinimumBalanceForRentExemption ::
            (collect env recipientAddress (.fin r) fanInTransactionFee (.fin f)
              (find env.store sub)).log } :=
  transferManyToOne_run_of_valid env sub recipientAddress (.number f) r hsub hrcp
    (by simp [JsValue.toNumber, hf0]) (by simp [JsValue.toNumber, hf1]) hne hrent

/-- The decision of a fan-in callback on finite values, in the specification's terms. -/
theorem lamportsToTransfer_fin (r F f b : ℚ) :
    lamportsToTransfer (.fin r) (.fin F) (.fin f) (.fin b)
      = if 0 < b - r - F ∧ 0 < ⌊(b - r - F) * f⌋
        then some (.fin (⌊(b - r - F) * f⌋ : ℤ)) else none := by
  have hsub : b - (r + F) = b - r - F := by ring
  simp only [lamportsToTransfer, JsNum.add_fin, JsNum.sub_fin, JsNum.le_fin, JsNum.floor_fin,
    hsub, JsNum.mul_fin]
  by_cases h1 : 0 < b - r - F
  · by_cases h2 : 0 < ⌊(b - r - F) * f⌋
    · have h2q : ¬ ((⌊(b - r - F) * f⌋ : ℚ) ≤ 0) := by
        push_neg
        exact_mod_cast h2
      simp [h1, h2, not_le.mpr h1, h2q]
    · have h2q : ((⌊(b - r - F) * f⌋ : ℚ) ≤ 0) := by
        exact_mod_cast not_lt.mp h2
      simp [h1, h2, not_le.mpr h1, h2q]
  · simp [h1, not_lt.mp h1]

/-! ## Fan-in allocation -/

theorem fanInItem_eq_none_iff (env : Env) (recipientAddress : String) (r F p : JsNum)
    (position : ℕ) (wallet : Wallet) :
    fanInItem env recipientAddress r F p position wallet = none ↔
      ∃ b : ℕ, env.getBalance wallet.publicKey = .ok b ∧
        lamportsToTransfer r F p (.fin b) = none := by
  unfold fanInItem
  cases hb : env.getBalance wallet.publicKey with
  | error message => simp
  | ok b =>
    cases hl : lamportsToTransfer r F p (.fin b) with
    | none => simp [hl]
    | some amount =>
      simp only [Except.ok.injEq, exists_eq_left', hl]
      cases env.performTransfer position _ <;> simp

theorem fanInCall_eq_none_of_skipped (env : Env) (recipientAddress : String) (r F p : JsNum)
    (wallet : Wallet) (b : ℕ) (hb : env.getBalance wallet.publicKey = .ok b)
    (hl : lamportsToTransfer r F p (.fin b) = none) :
    fanInCall env recipientAddress r F p wallet = none := by
  simp [fanInCall, hb, hl]

theorem sample_skipped (wallet : Wallet) (position : ℕ) :
    fanInItem (sampleEnv 895881) "R" (.fin (890880 : ℕ)) fanInTransactionFee (.fin 0.5)
        position wallet = none ∧
      fanInCall (sampleEnv 895881) "R" (.fin (890880 : ℕ)) fanInTransactionFee (.fin 0.5)
        wallet = none := by
  have hfloor : ⌊(((895881 : ℕ) : ℚ) - (890880 : ℕ) - 5000) * 0.5⌋ = 0 := by
    norm_num [Int.floor_eq_iff]
  have hl : lamportsToTransfer (.fin (890880 : ℕ)) fanInTransactionFee (.fin 0.5)
      (.fin (895881 : ℕ)) = none := by
    rw [fanInTransactionFee, lamportsToTransfer_fin, hfloor]
    simp
  exact ⟨(fanInItem_eq_none_iff _ _ _ _ _ _ _).mpr ⟨895881, rfl, hl⟩,
    fanInCall_eq_none_of_skipped _ _ _ _ _ _ 895881 rfl hl⟩

/-- Counterexample to C5 as stated: with reserve 890880, fee 5000 and fraction 0.5, the
three sample accounts of balance 895881 are all skipped (no transfer call, no success or
failure entry) although their transferable balance, 1, is positive. -/
theorem fanIn_skipped_with_positive_transferable :
    (transferManyToOne (sampleEnv 895881)
        { sub := some "u", recipientAddress := some "R", percentage := .number 0.5 }).response
        = .ok "0 wallets successfully transferred funds." [] [] ∧
      transferCalls (transferManyToOne (sampleEnv 895881)
        { sub := some "u", recipientAddress := some "R", percentage := .number 0.5 }).log
        = [] ∧
      ¬ (((895881 : ℕ) : ℚ) - (890880 : ℕ) - 5000 ≤ 0) := by
  have hrun := transferManyToOne_run (sampleEnv 895881) "u" "R" 0.5 890880 (by decide)
    (by decide) (by norm_num) (by norm_num) (by decide) rfl
  have hloop := collect_eq (sampleEnv 895881) "R" (.fin (890880 : ℕ)) fanInTransactionFee
    (.fin 0.5) (find (sampleEnv 895881).store "u")
  have hfind : find (sampleEnv 895881).store "u" = sampleWallets := by decide
  rw [hrun]
  refine ⟨?_, ?_, by norm_num⟩
  · simp only [hloop.1]
    simp only [hfind, sampleWallets, mapFrom, (sample_skipped _ _).1]
    decide
  · rw [transferCalls_cons_rent, hloop.2.1]
    simp only [hfind, sampleWallets, List.filterMap_cons, (sample_skipped _ 0).2,
      List.filterMap_nil]

/-! ## Request validation and the funds check -/

/-- The fraction check on numbers: a `percentage` that is a number outside `(0, 1]` is
rejected by both handlers with status 400 before any collaborator call. -/
theorem fraction_out_of_range_rejected (env : Env) (sub key recipientAddress : Option String)
    (f : ℚ) (hf : ¬ (0 < f ∧ f ≤ 1)) :
    transferOneToMany env
        { sub := sub, masterWalletSecretKey := key, percentage := .number f }
        = { response := .error 400
              "Missing sub parameter or invalid master wallet secret key or percentage."
            log := [] } ∧
      transferManyToOne env
        { sub := sub, recipientAddress := recipientAddress, percentage := .number f }
        = { response := .error 400
              "Missing sub parameter or invalid recipientAddress or percentage."
            log := [] } := by
  have h : f ≤ 0 ∨ 1 < f := by
    by_contra hcon
    push_neg at hcon
    exact hf ⟨hcon.1, hcon.2⟩
  constructor
  · simp only [transferOneToMany, JsValue.toNumber, JsNum.le_fin, JsNum.gt_fin]
    rcases h with h | h <;> simp [h]
  · simp only [transferManyToOne, JsValue.toNumber, JsNum.le_fin, JsNum.gt_fin]
    rcases h with h | h <;> simp [h]

/-- With a `NaN` fraction the second guard of a fan-in callback never fires: an account
with positive transferable balance gets the amount `NaN`. -/
theorem lamportsToTransfer_nan (r F b : ℚ) (h : 0 < b - (r + F)) :
    lamportsToTransfer (.fin r) (.fin F) .nan (.fin b) = some .nan := by
  simp only [lamportsToTransfer, JsNum.add_fin, JsNum.sub_fin, JsNum.le_fin, JsNum.mul,
    JsNum.floor, JsNum.le, decide_eq_true_eq, not_le.mpr h, if_false]
  rfl

/-- C6, the code at the failing input: a body without `percentage` passes the validation
of both handlers. With the sample environment (every balance 10000000) the fan-out
handler looks up the master balance and calls `performTransfer` with amount `NaN` for each
of the three wallets, answering with a summary of three transfers; the fan-in handler
likewise makes three `performTransfer` calls of amount `NaN`. -/
theorem missing_percentage_not_rejected :
    transferCalls (transferOneToMany (sampleEnv 10000000)
        { sub := some "u", masterWalletSecretKey := some "m", percentage := .undefined }).log
        = [ { senderSecretKey := "m", recipientAddress := "M", amount := .nan },
            { senderSecretKey := "m", recipientAddress := "A", amount := .nan },
            { senderSecretKey := "m", recipientAddress := "B", amount := .nan } ] ∧
      balanceLookups (transferOneToMany (sampleEnv 10000000)
        { sub := some "u", masterWalletSecretKey := some "m", percentage := .undefined }).log
        = ["M"] ∧
      (∃ transfers, (transferOneToMany (sampleEnv 10000000)
        { sub := some "u", masterWalletSecretKey := some "m",
          percentage := .undefined }).response
        = .ok "3 wallets successfully received funds." transfers []) ∧
      transferCalls (transferManyToOne (sampleEnv 10000000)
        { sub := some "u", recipientAddress := some "R", percentage := .undefined }).log
        = [ { senderSecretKey := "m", recipientAddress := "R", amount := .nan },
            { senderSecretKey := "a", recipientAddress := "R", amount := .nan },
            { senderSecretKey := "b", recipientAddress := "R", amount := .nan } ] := by
  refine ⟨by decide, by decide, ?_, ?_⟩
  · refine ⟨
      [ { masterPublicKey := some "M", recipient := some "M", publicKey := none,
          signature := some "sig", amountSent := some .nan, error := none },
        { masterPublicKey := some "M", recipient := some "A", publicKey := none,
          signature := some "sig", amountSent := some .nan, error := none },
        { masterPublicKey := some "M", recipient := some "B", publicKey := none,
          signature := some "sig", amountSent := some .nan, error := none } ], ?_⟩
    decide
  · have hl : lamportsToTransfer (.fin (890880 : ℕ)) fanInTransactionFee
        JsValue.undefined.toNumber (.fin (10000000 : ℕ)) = some .nan :=
      lamportsToTransfer_nan _ _ _ (by norm_num)
    rw [transferManyToOne_run_of_valid (sampleEnv 10000000) "u" "R" .undefined 890880
      (by decide) (by decide) rfl rfl (by decide) rfl, transferCalls_cons_rent,
      (collect_eq _ _ _ _ _ _).2.1]
    have hfind : find (sampleEnv 10000000).store "u" = sampleWallets := by decide
    have hcall : ∀ wallet : Wallet,
        fanInCall (sampleEnv 10000000) "R" (.fin (890880 : ℕ)) fanInTransactionFee
            JsValue.undefined.toNumber wallet
          = some { senderSecretKey := wallet.secretKey, recipientAddress := "R",
                   amount := .nan } := by
      intro wallet
      simp only [fanInCall, sampleEnv, hl, Option.map_some']
    rw [hfind]
    simp only [sampleWallets, List.filterMap_cons, List.filterMap_nil, hcall]

/-- An authorised fan-out request whose distributable total is at most the rent buffer is
answered with status 400 after the balance lookup, without any transfer. -/
theorem transferOneToMany_low_balance (env : Env) (sub key masterPublicKey : String) (B : ℕ)
    (f : ℚ) (hauth : FanOutAuthorised env sub key masterPublicKey B) (hf0 : 0 < f)
    (hf1 : f ≤ 1) (hD : B * f - 5000 ≤ 2000000) :
    transferOneToMany env
        { sub := some sub, masterWalletSecretKey := some key, percentage := .number f }
      = { response := .error 400
            "Master wallet balance is too low for the requested distribution."
          log := [.getBalance masterPublicKey] } := by
  obtain ⟨hsub, hkey, hpk, hown, hbal⟩ := hauth
  obtain ⟨w, hw⟩ := Option.isSome_iff_exists.mp hown
  simp [transferOneToMany, truthy, hsub, hkey, JsValue.toNumber, not_le.mpr hf0,
    not_lt.mpr hf1, hpk, hw, hbal, amountToDistribute, fanOutTransactionFee_eq,
    rentExemptionBuffer_eq, hD, hf1, hf0]

theorem ne_empty_of_length_pos (s : String) (h : 0 < s.length) : s ≠ "" := by
  intro hs
  rw [hs] at h
  exact absurd h (by decide)

theorem truthy_failure_message (label publicKey message : String) (h : 0 < label.length) :
    truthy (some (label ++ publicKey ++ ": " ++ message)) = true := by
  rw [truthy_some]
  apply ne_empty_of_length_pos
  simp only [String.length_append]
  omega

theorem fanOutSettle_exactly_one (env : Env)
    (hsig : ∀ position args signature,
      env.performTransfer position args = .ok signature → signature ≠ "")
    (masterPublicKey key : String) (position : ℕ) (pending : Wallet × JsNum) :
    hasError (fanOutSettle env masterPublicKey key position pending)
      = !hasSignature (fanOutSettle env masterPublicKey key position pending) := by
  unfold fanOutSettle
  cases h : env.performTransfer position (fanOutArgs key pending) with
  | ok signature =>
    have hs := hsig _ _ _ h
    simp [hasError, hasSignature, truthy, hs]
  | error message =>
    simp only [hasError, hasSignature,
      truthy_failure_message "Failed to transfer to wallet " _ _ (by decide)]
    rfl

theorem fanInItem_exactly_one (env : Env)
    (hsig : ∀ position args signature,
      env.performTransfer position args = .ok signature → signature ≠ "")
    (recipientAddress : String) (r F p : JsNum) (position : ℕ) (wallet : Wallet)
    (entry : Entry)
    (hentry : fanInItem env recipientAddress r F p position wallet = some entry) :
    hasError entry = !hasSignature entry := by
  have hfail : ∀ message, hasError (fanInFailure wallet message)
      = !hasSignature (fanInFailure wallet message) := by
    intro message
    simp only [hasError, hasSignature, fanInFailure,
      truthy_failure_message "Failed to transfer from wallet " _ _ (by decide)]
    rfl
  unfold fanInItem at hentry
  cases hb : env.getBalance wallet.publicKey with
  | error message =>
    simp only [hb, Option.some.injEq] at hentry
    rw [← hentry]
    exact hfail message
  | ok b =>
    simp only [hb] at hentry
    cases hl : lamportsToTransfer r F p (.fin b) with
    | none => simp [hl] at hentry
    | some amount =>
      simp only [hl] at hentry
      cases ht : env.performTransfer position
          { senderSecretKey := wallet.secretKey, recipientAddress := recipientAddress,
            amount := amount } with
      | ok signature =>
        have hs := hsig _ _ _ ht
        simp only [ht, Option.some.injEq] at hentry
        rw [← hentry]
        simp [hasError, hasSignature, truthy, hs]
      | error message =>
        simp only [ht, Option.some.injEq] at hentry
        rw [← hentry]
        exact hfail message

/-- When every result has exactly one of a truthy `signature` and a truthy `error`, the
two lists of the summary together hold every result exactly once. -/
theorem summary_accounts (suffix : String) (results : List Entry)
    (h : ∀ e ∈ results, hasError e = !hasSignature e) :
    ∃ message transfers failedTransfers,
      summary suffix results = .ok message transfers failedTransfers ∧
      (transfers ++ failedTransfers).Perm results ∧
      transfers.length + failedTransfers.length = results.length := by
  have hfilter : results.filter hasError = results.filter (fun e => !hasSignature e) :=
    List.filter_congr h
  have hperm : (results.filter hasSignature ++ results.filter hasError).Perm results := by
    rw [hfilter]
    exact List.filter_append_perm hasSignature results
  exact ⟨_, _, _, rfl, hperm, by simpa using hperm.length_eq⟩

theorem forall_mem_mapFrom (f : ℕ → α → β) (P : β → Prop) (h : ∀ k x, P (f k x)) (k : ℕ)
    (xs : List α) : ∀ y ∈ mapFrom f k xs, P y := by
  induction xs generalizing k with
  | nil => simp [mapFrom]
  | cons x xs ih =>
    intro y hy
    simp only [mapFrom, List.mem_cons] at hy
    rcases hy with rfl | hy
    · exact h k x
    · exact ih (k + 1) y hy

theorem exists_of_mem_filterMap_mapFrom (f : ℕ → α → Option β) (k : ℕ) (xs : List α) (y : β)
    (hy : y ∈ (mapFrom f k xs).filterMap id) : ∃ j x, x ∈ xs ∧ f j x = some y := by
  induction xs generalizing k with
  | nil => simp [mapFrom] at hy
  | cons x xs ih =>
    simp only [mapFrom, List.filterMap_cons] at hy
    cases hfx : f k x with
    | none =>
      simp only [hfx, id] at hy
      obtain ⟨j, z, hz, hj⟩ := ih (k + 1) hy
      exact ⟨j, z, List.mem_cons_of_mem _ hz, hj⟩
    | some z =>
      simp only [hfx, id, List.mem_cons] at hy
      rcases hy with rfl | hy
      · exact ⟨k, x, List.mem_cons_self _ _, hfx⟩
      · obtain ⟨j, w, hw, hj⟩ := ih (k + 1) hy
        exact ⟨j, w, List.mem_cons_of_mem _ hw, hj⟩

/-- C5, amended. In every fan-in run of `/transfer_many_to_one` (fee 5000, reserve `r`
returned by the rent lookup, fraction `f` in `(0, 1]`), the results are the non-null
values of the callbacks, so a skipped account (its callback returned `null`) contributes
no entry and every entry was produced by a wallet of the list that is not skipped; and
every skipped account has no transfer dispatched, had its balance `b` looked up, and has
`b - r - 5000 <= 0` or `floor((b - r - 5000) * f) <= 0`. -/
theorem fanIn_skipped_accounts (env : Env) (sub recipientAddress : String) (f : ℚ) (r : ℕ)
    (hsub : sub ≠ "") (hrcp : recipientAddress ≠ "") (hf0 : 0 < f) (hf1 : f ≤ 1)
    (hne : find env.store sub ≠ []) (hrent : env.getMinimumBalanceForRentExemption = .ok r) :
    (transferManyToOne env
        { sub := some sub, recipientAddress := some recipientAddress,
          percentage := .number f }).response
        = summary " wallets successfully transferred funds."
            ((mapFrom (fanInItem env recipientAddress (.fin r) fanInTransactionFee (.fin f)) 0
              (find env.store sub)).filterMap id) ∧
      (∀ entry ∈ (mapFrom (fanInItem env recipientAddress (.fin r) fanInTransactionFee
            (.fin f)) 0 (find env.store sub)).filterMap id,
        ∃ (position : ℕ) (wallet : Wallet), wallet ∈ find env.store sub ∧
          fanInItem env recipientAddress (.fin r) fanInTransactionFee (.fin f) position wallet
            = some entry ∧
          ∀ k, fanInItem env recipientAddress (.fin r) fanInTransactionFee (.fin f) k wallet
            ≠ none) ∧
      ∀ (position : ℕ) (wallet : Wallet),
        fanInItem env recipientAddress (.fin r) fanInTransactionFee (.fin f) position wallet
            = none →
          fanInCall env recipientAddress (.fin r) fanInTransactionFee (.fin f) wallet = none ∧
            ∃ b : ℕ, env.getBalance wallet.publicKey = .ok b ∧
              ((b : ℚ) - r - 5000 ≤ 0 ∨ ⌊((b : ℚ) - r - 5000) * f⌋ ≤ 0) := by
  refine ⟨?_, ?_, ?_⟩
  · rw [transferManyToOne_run env sub recipientAddress f r hsub hrcp hf0 hf1 hne hrent,
      (collect_eq env recipientAddress _ _ _ _).1]
  · intro entry hentry
    obtain ⟨position, wallet, hmem, hitem⟩ :=
      exists_of_mem_filterMap_mapFrom _ _ _ _ hentry
    refine ⟨position, wallet, hmem, hitem, ?_⟩
    intro k hk
    have hskip := (fanInItem_eq_none_iff _ _ _ _ _ k wallet).mp hk
    rw [(fanInItem_eq_none_iff _ _ _ _ _ position wallet).mpr hskip] at hitem
    exact Option.noConfusion hitem
  · intro position wallet hnone
    obtain ⟨b, hb, hl⟩ := (fanInItem_eq_none_iff _ _ _ _ _ _ _).mp hnone
    refine ⟨fanInCall_eq_none_of_skipped _ _ _ _ _ _ b hb hl, b, hb, ?_⟩
    rw [fanInTransactionFee, lamportsToTransfer_fin] at hl
    by_contra hcon
    push_neg at hcon
    rw [if_pos hcon] at hl
    exact Option.noConfusion hl

/-- Witness of C5, amended: the sample environment with balances 895881, reserve 890880
and fraction 0.5. -/
theorem fanIn_skipped_accounts_witness :
    (transferManyToOne (sampleEnv 895881)
        { sub := some "u", recipientAddress := some "R", percentage := .number 0.5 }).response
        = summary " wallets successfully transferred funds."
            ((mapFrom (fanInItem (sampleEnv 895881) "R" (.fin (890880 : ℕ))
              fanInTransactionFee (.fin 0.5)) 0 (find (sampleEnv 895881).store "u")).filterMap
              id) ∧
      (∀ entry ∈ (mapFrom (fanInItem (sampleEnv 895881) "R" (.fin (890880 : ℕ))
            fanInTransactionFee (.fin 0.5)) 0 (find (sampleEnv 895881).store "u")).filterMap id,
        ∃ (position : ℕ) (wallet : Wallet), wallet ∈ find (sampleEnv 895881).store "u" ∧
          fanInItem (sampleEnv 895881) "R" (.fin (890880 : ℕ)) fanInTransactionFee (.fin 0.5)
            position wallet = some entry ∧
          ∀ k, fanInItem (sampleEnv 895881) "R" (.fin (890880 : ℕ)) fanInTransactionFee
            (.fin 0.5) k wallet ≠ none) ∧
      ∀ (position : ℕ) (wallet : Wallet),
        fanInItem (sampleEnv 895881) "R" (.fin (890880 : ℕ)) fanInTransactionFee (.fin 0.5)
            position wallet = none →
          fanInCall (sampleEnv 895881) "R" (.fin (890880 : ℕ)) fanInTransactionFee (.fin 0.5)
              wallet = none ∧
            ∃ b : ℕ, (sampleEnv 895881).getBalance wallet.publicKey = .ok b ∧
              ((b : ℚ) - (890880 : ℕ) - 5000 ≤ 0
                ∨ ⌊((b : ℚ) - (890880 : ℕ) - 5000) * 0.5⌋ ≤ 0) :=
  fanIn_skipped_accounts (sampleEnv 895881) "u" "R" 0.5 890880 (by decide) (by decide)
    (by norm_num) (by norm_num) (by decide) rfl

theorem silentEnv_authorised (balance : ℕ) :
    FanOutAuthorised (silentEnv balance) "u" "m" "M" balance :=
  ⟨by decide, by decide, rfl, rfl, rfl⟩

theorem filter_mapFrom_eq_nil (f : ℕ → α → β) (p : β → Bool) (h : ∀ k x, p (f k x) = false)
    (k : ℕ) (xs : List α) : (mapFrom f k xs).filter p = [] := by
  rw [List.filter_eq_nil_iff]
  intro y hy
  have := forall_mem_mapFrom f (fun y => p y = false) h k xs y hy
  simp [this]

theorem sampleEnv_signatures (balance : ℕ) :
    ∀ (position : ℕ) (args : TransferArgs) (signature : String),
      (sampleEnv balance).performTransfer position args = .ok signature → signature ≠ "" := by
  intro position args signature h
  have hs : signature = "sig" := by
    simp only [sampleEnv, Except.ok.injEq] at h
    exact h.symm
  rw [hs]
  decide

theorem withTransferFailure_authorised (env : Env) (j : ℕ) (message : String)
    (sub key masterPublicKey : String) (B : ℕ)
    (h : FanOutAuthorised env sub key masterPublicKey B) :
    FanOutAuthorised (env.withTransferFailure j message) sub key masterPublicKey B := h

theorem fanOutSettle_withTransferFailure_self (env : Env) (j : ℕ) (message : String)
    (masterPublicKey key : String) (pending : Wallet × JsNum) :
    fanOutSettle (env.withTransferFailure j message) masterPublicKey key j pending
      = { masterPublicKey := none, recipient := none, publicKey := none, signature := none,
          amountSent := none,
          error := some ("Failed to transfer to wallet " ++ pending.1.publicKey ++ ": "
            ++ message) } := by
  simp [fanOutSettle, Env.withTransferFailure]

theorem fanOutSettle_withTransferFailure_other (env : Env) (j : ℕ) (message : String)
    (masterPublicKey key : String) (k : ℕ) (hk : k ≠ j) (pending : Wallet × JsNum) :
    fanOutSettle (env.withTransferFailure j message) masterPublicKey key k pending
      = fanOutSettle env masterPublicKey key k pending := by
  simp [fanOutSettle, Env.withTransferFailure, hk]

theorem fanInCall_withTransferFailure (env : Env) (j : ℕ) (message : String)
    (recipientAddress : String) (r F p : JsNum) (wallet : Wallet) :
    fanInCall (env.withTransferFailure j message) recipientAddress r F p wallet
      = fanInCall env recipientAddress r F p wallet := rfl

theorem fanInItem_withTransferFailure_other (env : Env) (j : ℕ) (message : String)
    (recipientAddress : String) (r F p : JsNum) (k : ℕ) (hk : k ≠ j) (wallet : Wallet) :
    fanInItem (env.withTransferFailure j message) recipientAddress r F p k wallet
      = fanInItem env recipientAddress r F p k wallet := by
  simp [fanInItem, Env.withTransferFailure, hk]

theorem fanInItem_withTransferFailure_self (env : Env) (j : ℕ) (message : String)
    (recipientAddress : String) (r F p : JsNum) (wallet : Wallet)
    (h : (fanInCall env recipientAddress r F p wallet).isSome = true) :
    fanInItem (env.withTransferFailure j message) recipientAddress r F p j wallet
      = some (fanInFailure wallet message) := by
  unfold fanInCall at h
  unfold fanInItem
  simp only [Env.withTransferFailure]
  cases hb : env.getBalance wallet.publicKey with
  | error m => simp [hb] at h
  | ok b =>
    simp only [hb] at h
    cases hl : lamportsToTransfer r F p (.fin b) with
    | none => simp [hl] at h
    | some amount => simp [hl]

theorem fanInItem_withBalanceFailure_self (env : Env) (publicKey message : String)
    (recipientAddress : String) (r F p : JsNum) (k : ℕ) (wallet : Wallet)
    (h : wallet.publicKey = publicKey) :
    fanInItem (env.withBalanceFailure publicKey message) recipientAddress r F p k wallet
      = some (fanInFailure wallet message) := by
  simp [fanInItem, Env.withBalanceFailure, h]

theorem fanInItem_withBalanceFailure_other (env : Env) (publicKey message : String)
    (recipientAddress : String) (r F p : JsNum) (k : ℕ) (wallet : Wallet)
    (h : wallet.publicKey ≠ publicKey) :
    fanInItem (env.withBalanceFailure publicKey message) recipientAddress r F p k wallet
        = fanInItem env recipientAddress r F p k wallet ∧
      fanInCall (env.withBalanceFailure publicKey message) recipientAddress r F p wallet
        = fanInCall env recipientAddress r F p wallet := by
  simp [fanInItem, fanInCall, Env.withBalanceFailure, h]

theorem withTransferFailure_store (env : Env) (j : ℕ) (message : String) :
    (env.withTransferFailure j message).store = env.store := rfl

theorem withBalanceFailure_store (env : Env) (publicKey message : String) :
    (env.withBalanceFailure publicKey message).store = env.store := rfl

/-- The response of an authorised fan-out run in terms of the sequential plan. -/
theorem transferOneToMany_response (env : Env) (sub key masterPublicKey : String) (B : ℕ)
    (f : ℚ) (hauth : FanOutAuthorised env sub key masterPublicKey B) (hf0 : 0 < f)
    (hf1 : f ≤ 1) (hD : 2000000 < B * f - 5000) :
    (transferOneToMany env
        { sub := some sub, masterWalletSecretKey := some key,
          percentage := .number f }).response
        = summary " wallets successfully received funds."
            (mapFrom (fanOutSettle env masterPublicKey key) 0
              (List.zipWith (fun wallet amount => (wallet, JsNum.fin amount))
                (find env.store sub)
                (sequentialPlan ((B : ℚ) * f - 5000) (find env.store sub).length))) ∧
      transferCalls (transferOneToMany env
        { sub := some sub, masterWalletSecretKey := some key, percentage := .number f }).log
        = (List.zipWith (fun wallet amount => (wallet, JsNum.fin amount))
            (find env.store sub)
            (sequentialPlan ((B : ℚ) * f - 5000) (find env.store sub).length)).map
          (fanOutArgs key) := by
  have hne := find_ne_nil_of_findOne _ _ _ hauth.2.2.2.1
  have hlen : (find env.store sub).length ≠ 0 := by
    simpa [List.length_eq_zero] using hne
  rw [transferOneToMany_run env sub key masterPublicKey B f hauth hf0 hf1 hD]
  refine ⟨?_, ?_⟩
  · show summary _ (distribute env masterPublicKey key _ _).transferResults = _
    rw [(distribute_eq env masterPublicKey key _ _).2.1, maxAmount_fin _ _ hlen,
      dispatch_eq_zipWith]
    rfl
  · rw [transferCalls_cons_getBalance, (distribute_eq env masterPublicKey key _ _).2.2,
      maxAmount_fin _ _ hlen, dispatch_eq_zipWith]
    rfl

/-- The response of a valid fan-in run in terms of the callbacks. -/
theorem transferManyToOne_response (env : Env) (sub recipientAddress : String) (f : ℚ)
    (r : ℕ) (hsub : sub ≠ "") (hrcp : recipientAddress ≠ "") (hf0 : 0 < f) (hf1 : f ≤ 1)
    (hne : find env.store sub ≠ []) (hrent : env.getMinimumBalanceForRentExemption = .ok r) :
    (transferManyToOne env
        { sub := some sub, recipientAddress := some recipientAddress,
          percentage := .number f }).response
        = summary " wallets successfully transferred funds."
            ((mapFrom (fanInItem env recipientAddress (.fin r) fanInTransactionFee (.fin f)) 0
              (find env.store sub)).filterMap id) ∧
      transferCalls (transferManyToOne env
        { sub := some sub, recipientAddress := some recipientAddress,
          percentage := .number f }).log
        = (find env.store sub).filterMap
            (fanInCall env recipientAddress (.fin r) fanInTransactionFee (.fin f)) := by
  rw [transferManyToOne_run env sub recipientAddress f r hsub hrcp hf0 hf1 hne hrent]
  refine ⟨?_, ?_⟩
  · show summary _ (collect env recipientAddress _ _ _ _).transferResults = _
    rw [(collect_eq env recipientAddress _ _ _ _).1]
  · rw [transferCalls_cons_rent, (collect_eq env recipientAddress _ _ _ _).2.1]

/-- The invariant of the loop that records the batches: after `j` wallets, the recorded
batches are the slices at `0, 10, 20, ...` and concatenate to the first `j` wallets. -/
theorem batches_invariant (wallets : List α) :
    ∃ j, wallets.length ≤ j ∧ j % 10 = 0 ∧ j < wallets.length + 10 ∧
      (batches wallets).flatten = wallets.take j ∧
      (batches wallets).length = j / 10 ∧
      ∀ k, k < (batches wallets).length →
        (batches wallets)[k]? = some (slice wallets (k * 10) (k * 10 + 10)) := by
  have h := forEachBatch_invariant (fun acc batch (_ : ℕ) => acc ++ [batch]) wallets
    (fun j acc => j % 10 = 0 ∧ j < wallets.length + 10 ∧
      acc.flatten = wallets.take j ∧ acc.length = j / 10 ∧
      ∀ k, k < acc.length → acc[k]? = some (slice wallets (k * 10) (k * 10 + 10)))
    (by
      intro i acc hmod hi ⟨h1, _, h3, h4, h5⟩
      simp only [batchSize] at hmod ⊢
      refine ⟨by omega, by omega, ?_, ?_, ?_⟩
      · rw [List.flatten_concat, h3]
        exact (take_add_eq_take_append_slice wallets i 10).symm
      · rw [List.length_append, h4]
        simp only [List.length_singleton]
        omega
      · intro k hk
        rw [List.length_append, List.length_singleton] at hk
        by_cases hlt : k < acc.length
        · rw [List.getElem?_append_left hlt]
          exact h5 k hlt
        · have hkeq : k = acc.length := by omega
          have hki : k * 10 = i := by omega
          rw [List.getElem?_append_right (by omega), hkeq, Nat.sub_self,
            ← hkeq, hki]
          rfl)
    wallets.length 0 [] (by simp [batchSize]) (by simp)
    ⟨by simp, by omega, by simp, by simp, by simp⟩
  obtain ⟨j, hj, h1, h2, h3, h4, h5⟩ := h
  exact ⟨j, hj, h1, h2, h3, h4, h5⟩

/-- The loop with an arbitrary body and the loop that records the batches advance together. -/
theorem forEachBatch_pair (body : σ → List α → ℕ → σ) (wallets : List α) :
    ∀ (fuel i : ℕ) (s : σ) (acc : List (List α)),
      forEachBatch (fun (st : σ × List (List α)) batch k => (body st.1 batch k, st.2 ++ [batch]))
          wallets fuel i (s, acc)
        = (forEachBatch body wallets fuel i s,
            forEachBatch (fun acc batch (_ : ℕ) => acc ++ [batch]) wallets fuel i acc) := by
  intro fuel
  induction fuel with
  | zero => intro i s acc; rfl
  | succ fuel ih =>
    intro i s acc
    by_cases hi : i < wallets.length
    · simp only [forEachBatch, hi, if_true, ih]
    · simp only [forEachBatch, hi, if_false]

/-- The batch loop of the handlers is a left fold of its body over `batches wallets`, the
batch at index `k` being processed with `batchIndex = k`. -/
theorem forEachBatch_eq_foldl (body : σ → List α → ℕ → σ) (wallets : List α) (s : σ) :
    forEachBatch body wallets wallets.length 0 s
      = (batches wallets).enum.foldl (fun s p => body s p.2 p.1) s := by
  have h := forEachBatch_invariant
    (fun (st : σ × List (List α)) batch k => (body st.1 batch k, st.2 ++ [batch])) wallets
    (fun j st => st.2.length = j / 10 ∧
      st.1 = st.2.enum.foldl (fun s p => body s p.2 p.1) s)
    (by
      intro i st hmod hi ⟨h1, h2⟩
      simp only [batchSize] at hmod ⊢
      refine ⟨?_, ?_⟩
      · rw [List.length_append, h1]
        simp only [List.length_singleton]
        omega
      · rw [List.enum_append, List.foldl_append, ← h2, List.enumFrom_singleton, h1]
        rfl)
    wallets.length 0 (s, []) (by simp [batchSize]) (by simp) ⟨by simp, by simp⟩
  obtain ⟨j, _, _, h2⟩ := h
  rw [forEachBatch_pair] at h2
  exact h2

/-- C10. For every wallet list of length `N`, the batches the transfer handlers form with
`batchSize = 10` are the consecutive slices `wallets.slice(10k, 10k + 10)`, processed in
order by the batch loop; their concatenation is the original list, every batch is
non-empty and has at most 10 items, every batch but the last has exactly 10, and there are
`ceil(N / 10)` of them. -/
theorem batches_spec (wallets : List α) :
    (batches wallets).flatten = wallets ∧
      (batches wallets).length = (wallets.length + 9) / 10 ∧
      (∀ k, k < (batches wallets).length →
        (batches wallets)[k]? = some (slice wallets (k * 10) (k * 10 + 10))) ∧
      (∀ batch ∈ batches wallets, batch ≠ [] ∧ batch.length ≤ 10) ∧
      (∀ k, k + 1 < (batches wallets).length →
        ∃ batch, (batches wallets)[k]? = some batch ∧ batch.length = 10) ∧
      (∀ (σ : Type) (body : σ → List α → ℕ → σ) (s : σ),
        forEachBatch body wallets wallets.length 0 s
          = (batches wallets).enum.foldl (fun s p => body s p.2 p.1) s) := by
  obtain ⟨j, hj, hmod, hlt, hflat, hlen, hget⟩ := batches_invariant wallets
  refine ⟨?_, ?_, hget, ?_, ?_, ?_⟩
  · rw [hflat, List.take_of_length_le hj]
  · rw [hlen]
    omega
  · intro batch hbatch
    obtain ⟨k, hk, hkb⟩ := List.getElem_of_mem hbatch
    have hsome := hget k hk
    rw [List.getElem?_eq_getElem hk, hkb, Option.some.injEq] at hsome
    have hl := slice_length wallets (k * 10) 10
    rw [← hsome] at hl
    have hbound : k * 10 < wallets.length := by omega
    constructor
    · intro hnil
      rw [hnil] at hl
      simp only [List.length_nil] at hl
      omega
    · omega
  · intro k hk
    refine ⟨_, hget k (by omega), ?_⟩
    rw [slice_length]
    omega
  · intro σ body s
    exact forEachBatch_eq_foldl body wallets s

/-- Witness of C10: a list of 23 items is cut into batches of 10, 10 and 3 items that
concatenate to the list. -/
theorem batches_spec_witness :
    (batches (List.range 23)).map List.length = [10, 10, 3] ∧
      (batches (List.range 23)).flatten = List.range 23 ∧
      (batches (List.range 23)).length = (23 + 9) / 10 :=
  ⟨by decide, (batches_spec (List.range 23)).1, (batches_spec (List.range 23)).2.1⟩

/-! ## The cap is always selected -/

theorem referenceAllocation_eq_replicate (C : ℚ) (hC : 0 ≤ C) (n : ℕ) (r : ℚ)
    (h : n * C ≤ r) : referenceAllocation C n r = List.replicate n C := by
  induction n generalizing r with
  | zero => rfl
  | succ n ih =>
    have hn : (0 : ℚ) ≤ n * C := mul_nonneg (Nat.cast_nonneg n) hC
    have hle : C ≤ r := by
      push_cast at h
      linarith
    have hrest : n * C ≤ r - C := by
      push_cast at h
      linarith
    simp only [referenceAllocation, min_eq_left hle, ih (r - C) hrest, List.replicate_succ]

theorem mul_floor_div_le (D : ℚ) (n : ℕ) (hn : n ≠ 0) : (n : ℚ) * ⌊D / n⌋ ≤ D := by
  have hpos : (0 : ℚ) < n := by exact_mod_cast Nat.pos_of_ne_zero hn
  have h := Int.floor_le (D / n)
  calc (n : ℚ) * ⌊D / n⌋ ≤ n * (D / n) := mul_le_mul_of_nonneg_left h hpos.le
    _ = D := by field_simp

theorem lt_mul_floor_div_add (D : ℚ) (n : ℕ) (hn : n ≠ 0) : D - n * ⌊D / n⌋ < n := by
  have hpos : (0 : ℚ) < n := by exact_mod_cast Nat.pos_of_ne_zero hn
  have h := Int.lt_floor_add_one (D / n)
  have h2 : (n : ℚ) * (D / n) < n * (⌊D / n⌋ + 1) := mul_lt_mul_of_pos_left h hpos
  have h3 : (n : ℚ) * (D / n) = D := by field_simp
  rw [h3] at h2
  linarith

theorem sequentialPlan_eq_replicate (D : ℚ) (hD : 0 ≤ D) (n : ℕ) (hn : n ≠ 0) :
    sequentialPlan D n = List.replicate n ((⌊D / n⌋ : ℤ) : ℚ) := by
  have hpos : (0 : ℚ) ≤ n := Nat.cast_nonneg n
  exact referenceAllocation_eq_replicate _
    (by exact_mod_cast Int.floor_nonneg.mpr (div_nonneg hD hpos)) n D
    (mul_floor_div_le D n hn)

theorem sum_replicate_rat (n : ℕ) (C : ℚ) : (List.replicate n C).sum = n * C := by
  induction n with
  | zero => simp
  | succ n ih =>
    simp only [List.replicate_succ, List.sum_cons, ih]
    push_cast
    ring

theorem findOne_some (store : List Wallet) (publicKey sub : String) (w : Wallet)
    (h : findOne store publicKey sub = some w) :
    w ∈ find store sub ∧ w.publicKey = publicKey ∧ w.sub = sub := by
  rw [findOne] at h
  have hp := List.find?_some h
  have hmem := List.mem_of_find?_eq_some h
  simp only [Bool.and_eq_true, beq_iff_eq] at hp
  refine ⟨?_, hp.1, hp.2⟩
  simp only [find, List.mem_filter, beq_iff_eq]
  exact ⟨hmem, hp.2⟩

/-- The 404 branch of the fan-out handler is dead code: no environment and no request body
lead to it. -/
theorem transferOneToMany_never_404 (env : Env) (body : FanOutBody) :
    (transferOneToMany env body).response ≠ .error 404 "No wallets found for the user." := by
  unfold transferOneToMany
  simp only []
  split
  · simp
  · split
    · simp
    · split
      · simp
      · rename_i w hw
        split
        · simp
        · split
          · simp
          · split
            · rename_i hlen
              have hmem := (findOne_some _ _ _ w hw).1
              rw [List.length_eq_zero] at hlen
              rw [hlen] at hmem
              exact absurd hmem (List.not_mem_nil _)
            · simp [summary]

theorem exists_mem_zipWith_of_mem {α β γ : Type} (g : α → β → γ) (xs : List α)
    (ys : List β) (hlen : ys.length = xs.length) (x : α) (hx : x ∈ xs) :
    ∃ y, g x y ∈ List.zipWith g xs ys := by
  induction xs generalizing ys with
  | nil => exact absurd hx (List.not_mem_nil _)
  | cons a xs ih =>
    cases ys with
    | nil => simp at hlen
    | cons b ys =>
      simp only [List.length_cons, Nat.add_right_cancel_iff] at hlen
      simp only [List.mem_cons] at hx
      rcases hx with rfl | hx
      · exact ⟨b, by simp⟩
      · obtain ⟨y, hy⟩ := ih ys hlen hx
        exact ⟨y, by simp [hy]⟩

/-- C19. Against a fixed store snapshot, when the ownership check of
`/transfer_one_to_many` passes (`findOne` returns a wallet for the master public key and
`sub`), that wallet is in the recipient list `find` returns for `sub`, so the list is not
empty; the handler never answers 404 'No wallets found for the user.'; and in every
authorised run that passes the funds check one of the `performTransfer` calls has the
master wallet's own public key as recipient. -/
theorem master_wallet_among_recipients (env : Env) :
    (∀ (publicKey sub : String) (w : Wallet), findOne env.store publicKey sub = some w →
      w ∈ find env.store sub ∧ w.publicKey = publicKey ∧ find env.store sub ≠ []) ∧
    (∀ body : FanOutBody,
      (transferOneToMany env body).response
        ≠ .error 404 "No wallets found for the user.") ∧
    (∀ (sub key masterPublicKey : String) (B : ℕ) (f : ℚ),
      FanOutAuthorised env sub key masterPublicKey B → 0 < f → f ≤ 1 →
      2000000 < (B : ℚ) * f - 5000 →
      ∃ args ∈ transferCalls (transferOneToMany env
          { sub := some sub, masterWalletSecretKey := some key,
            percentage := .number f }).log,
        args.senderSecretKey = key ∧ args.recipientAddress = masterPublicKey) := by
  refine ⟨?_, transferOneToMany_never_404 env, ?_⟩
  · intro publicKey sub w hw
    have h := findOne_some _ _ _ w hw
    exact ⟨h.1, h.2.1, List.ne_nil_of_mem h.1⟩
  · intro sub key masterPublicKey B f hauth hf0 hf1 hD
    obtain ⟨w, hw⟩ := Option.isSome_iff_exists.mp hauth.2.2.2.1
    have h := findOne_some _ _ _ w hw
    rw [(transferOneToMany_response env sub key masterPublicKey B f hauth hf0 hf1 hD).2,
      List.map_zipWith]
    obtain ⟨y, hy⟩ := exists_mem_zipWith_of_mem
      (fun wallet amount => fanOutArgs key (wallet, JsNum.fin amount))
      (find env.store sub)
      (sequentialPlan ((B : ℚ) * f - 5000) (find env.store sub).length)
      (referenceAllocation_length _ _ _) w h.1
    exact ⟨_, hy, rfl, h.2.1⟩

/-- Witness of C19: in the sample environment the master wallet `"M"` is found under
`"u"`, is in the list fetched for `"u"`, and receives one of the transfers. -/
theorem master_wallet_among_recipients_witness :
    ({ sub := "u", publicKey := "M", secretKey := "m" } : Wallet)
        ∈ find (sampleEnv 10000000).store "u" ∧
      ∃ args ∈ transferCalls (transferOneToMany (sampleEnv 10000000)
          { sub := some "u", masterWalletSecretKey := some "m",
            percentage := .number 1 }).log,
        args.senderSecretKey = "m" ∧ args.recipientAddress = "M" :=
  ⟨((master_wallet_among_recipients (sampleEnv 10000000)).1 "M" "u"
      { sub := "u", publicKey := "M", secretKey := "m" } rfl).1,
    (master_wallet_among_recipients (sampleEnv 10000000)).2.2 "u" "m" "M" 10000000 1
      (sampleEnv_authorised 10000000) (by norm_num) (by norm_num) (by norm_num)⟩

/-! ## An owner without wallets -/

theorem findOne_eq_none_of_find_eq_nil (store : List Wallet) (publicKey sub : String)
    (h : find store sub = []) : findOne store publicKey sub = none := by
  cases hfo : findOne store publicKey sub with
  | none => rfl
  | some w =>
    have hmem := (findOne_some _ _ _ w hfo).1
    rw [h] at hmem
    exact absurd hmem (List.not_mem_nil _)

/-- Counterexample to C14 as stated: with an empty `wallets` collection, an otherwise valid
fan-out request of user `"u"` is answered 403, not 404. -/
theorem fanOut_empty_list_is_403 :
    find emptyEnv.store "u" = [] ∧
      (transferOneToMany emptyEnv
          { sub := some "u", masterWalletSecretKey := some "m",
            percentage := .number 1 }).response
        = .error 403 "Unauthorized access. Master wallet does not belong to the user." ∧
      (transferOneToMany emptyEnv
          { sub := some "u", masterWalletSecretKey := some "m",
            percentage := .number 1 }).response
        ≠ .error 404 "No wallets found for the user." := by
  have hresp : (transferOneToMany emptyEnv
      { sub := some "u", masterWalletSecretKey := some "m",
        percentage := .number 1 }).response
      = .error 403 "Unauthorized access. Master wallet does not belong to the user." := by
    have h1 : ("u" : String) ≠ "" := by decide
    have h2 : ("m" : String) ≠ "" := by decide
    norm_num [transferOneToMany, truthy, JsValue.toNumber, emptyEnv, sampleEnv, findOne, h1,
      h2]
  refine ⟨rfl, hresp, ?_⟩
  rw [hresp]
  decide

/-- C14, amended. For a request whose `sub`, credential and recipient are non-empty strings
and whose fraction is a number in `(0, 1]`, and whose owner has no wallet in the store:
`/transfer_many_to_one` answers 404 'No wallets found for the user.' without any
collaborator call; `/transfer_one_to_many`, when the secret key parses, answers 403 at the
ownership check, also without any collaborator call. Neither makes an executor call. -/
theorem empty_wallet_list_rejected (env : Env) (sub key recipientAddress masterPublicKey :
    String) (f : ℚ) (hsub : sub ≠ "") (hkey : key ≠ "") (hrcp : recipientAddress ≠ "")
    (hf0 : 0 < f) (hf1 : f ≤ 1) (hempty : find env.store sub = [])
    (hpk : env.publicKeyOf key = .ok masterPublicKey) :
    transferManyToOne env
        { sub := some sub, recipientAddress := some recipientAddress, percentage := .number f }
        = { response := .error 404 "No wallets found for the user.", log := [] } ∧
      transferOneToMany env
        { sub := some sub, masterWalletSecretKey := some key, percentage := .number f }
        = { response := .error 403
              "Unauthorized access. Master wallet does not belong to the user."
            log := [] } := by
  constructor
  · simp [transferManyToOne, truthy, hsub, hrcp, JsValue.toNumber, hf0, hf1, hempty]
  · have hnone := findOne_eq_none_of_find_eq_nil env.store masterPublicKey sub hempty
    simp [transferOneToMany, truthy, hsub, hkey, JsValue.toNumber, hf0, hf1, hpk, hnone]

/-- Witness of C14, amended: the environment with an empty store. -/
theorem empty_wallet_list_rejected_witness :
    transferManyToOne emptyEnv
        { sub := some "u", recipientAddress := some "R", percentage := .number 1 }
        = { response := .error 404 "No wallets found for the user.", log := [] } ∧
      transferOneToMany emptyEnv
        { sub := some "u", masterWalletSecretKey := some "m", percentage := .number 1 }
        = { response := .error 403
              "Unauthorized access. Master wallet does not belong to the user."
            log := [] } :=
  empty_wallet_list_rejected emptyEnv "u" "m" "R" "M" 1 (by decide) (by decide) (by decide)
    (by norm_num) (by norm_num) rfl rfl

/-! ## Amounts and the spendable balance -/

theorem transferOneToMany_amounts (env : Env) (sub key masterPublicKey : String) (B : ℕ)
    (f : ℚ) (hauth : FanOutAuthorised env sub key masterPublicKey B) (hf0 : 0 < f)
    (hf1 : f ≤ 1) (hD : 2000000 < B * f - 5000) :
    transferAmounts (transferOneToMany env
        { sub := some sub, masterWalletSecretKey := some key, percentage := .number f }).log
      = List.replicate (find env.store sub).length
          (.fin (⌊((B : ℚ) * f - 5000) / (find env.store sub).length⌋ : ℤ)) := by
  have hne := find_ne_nil_of_findOne _ _ _ hauth.2.2.2.1
  have hlen : (find env.store sub).length ≠ 0 := by
    simpa [List.length_eq_zero] using hne
  have hD0 : (0 : ℚ) ≤ B * f - 5000 := by linarith
  rw [transferOneToMany_run env sub key masterPublicKey B f hauth hf0 hf1 hD]
  simp only [transferAmounts]
  rw [distribute_amounts env masterPublicKey key _ _ hne,
    sequentialPlan_eq_replicate _ hD0 _ hlen, List.map_replicate]

theorem sleeps_append (xs ys : List Effect) : sleeps (xs ++ ys) = sleeps xs ++ sleeps ys := by
  induction xs with
  | nil => rfl
  | cons e xs ih => cases e <;> simp [sleeps, ih]

theorem sleeps_map_performTransfer (f : α → TransferArgs) (xs : List α) :
    sleeps (xs.map (fun x => Effect.performTransfer (f x))) = [] := by
  induction xs with
  | nil => rfl
  | cons x xs ih => simp [sleeps, ih]

theorem sleeps_map_getBalance (f : α → String) (xs : List α) :
    sleeps (xs.map (fun x => Effect.getBalance (f x))) = [] := by
  induction xs with
  | nil => rfl
  | cons x xs ih => simp [sleeps, ih]

theorem sleeps_cons_getBalance (publicKey : String) (log : List Effect) :
    sleeps (.getBalance publicKey :: log) = sleeps log := rfl

theorem sleeps_cons_rent (log : List Effect) :
    sleeps (.getMinimumBalanceForRentExemption :: log) = sleeps log := rfl

/-- A batch loop whose body appends exactly one `sleep(rateLimitMs)` to the log sleeps
once per batch. -/
theorem sleeps_forEachBatch {σ α : Type} (body : σ → List α → ℕ → σ)
    (log : σ → List Effect)
    (hbody : ∀ s batch k, sleeps (log (body s batch k)) = sleeps (log s) ++ [rateLimitMs])
    (wallets : List α) (s : σ) (hs : sleeps (log s) = []) :
    sleeps (log (forEachBatch body wallets wallets.length 0 s))
      = List.replicate (batches wallets).length rateLimitMs := by
  have h := forEachBatch_invariant
    (fun (st : σ × List (List α)) batch k => (body st.1 batch k, st.2 ++ [batch])) wallets
    (fun _ st => sleeps (log st.1) = List.replicate st.2.length rateLimitMs)
    (by
      intro i st _ _ hP
      simp only [hbody, hP, List.length_append, List.length_singleton]
      exact (List.replicate_succ' _ _).symm)
    wallets.length 0 (s, []) (by simp [batchSize]) (by simp) (by simpa using hs)
  obtain ⟨j, _, h2⟩ := h
  rw [forEachBatch_pair] at h2
  exact h2

/-- Both transfer handlers' batch loops sleep `rateLimitMs` once per batch, the final batch
included. -/
theorem sleeps_eq_replicate_batches (env : Env) (wallets : List Wallet) :
    (∀ (masterPublicKey key : String) (D : JsNum),
      sleeps (distribute env masterPublicKey key D wallets).log
        = List.replicate (batches wallets).length rateLimitMs) ∧
    (∀ (recipientAddress : String) (r F p : JsNum),
      sleeps (collect env recipientAddress r F p wallets).log
        = List.replicate (batches wallets).length rateLimitMs) := by
  constructor
  · intro masterPublicKey key D
    exact sleeps_forEachBatch _ FanOutState.log
      (by
        intro s batch k
        simp [fanOutProcessBatch, sleeps_append, sleeps_map_performTransfer, sleeps])
      wallets _ rfl
  · intro recipientAddress r F p
    exact sleeps_forEachBatch _ FanInState.log
      (by
        intro s batch k
        simp only [fanInProcessBatch, sleeps_append, sleeps_map_getBalance, sleeps,
          List.append_nil]
        rw [sleeps_map_performTransfer (fun x => x)]
        simp)
      wallets _ rfl

/-- C12, the code at the failing input: with the three sample wallets the batch loop has
one batch, and both handlers sleep `rateLimitMs` once, after that only and final batch. -/
theorem sleeps_after_final_batch :
    (batches (find (sampleEnv 10000000).store "u")).length = 1 ∧
      sleeps (transferOneToMany (sampleEnv 10000000)
        { sub := some "u", masterWalletSecretKey := some "m", percentage := .number 1 }).log
        = [100] ∧
      sleeps (transferManyToOne (sampleEnv 10000000)
        { sub := some "u", recipientAddress := some "R", percentage := .number 1 }).log
        = [100] := by
  have hbatches : (batches (find (sampleEnv 10000000).store "u")).length = 1 := by decide
  refine ⟨hbatches, ?_, ?_⟩
  · rw [transferOneToMany_run (sampleEnv 10000000) "u" "m" "M" 10000000 1
      (sampleEnv_authorised 10000000) (by norm_num) (by norm_num) (by norm_num),
      sleeps_cons_getBalance, (sleeps_eq_replicate_batches _ _).1, hbatches]
    rfl
  · rw [transferManyToOne_run (sampleEnv 10000000) "u" "R" 1 890880 (by decide) (by decide)
      (by norm_num) (by norm_num) (by decide) rfl,
      sleeps_cons_rent, (sleeps_eq_replicate_batches _ _).2, hbatches]
    rfl

/-! ## The fields of the success entries -/

/-- A fan-out result with a truthy signature carries the master public key, the
recipient, the signature and the amount sent. -/
theorem fanOutSettle_fields (env : Env) (masterPublicKey key : String) (position : ℕ)
    (pending : Wallet × JsNum)
    (h : hasSignature (fanOutSettle env masterPublicKey key position pending) = true) :
    ∃ signature,
      fanOutSettle env masterPublicKey key position pending
        = { masterPublicKey := some masterPublicKey
            recipient := some pending.1.publicKey
            publicKey := none
            signature := some signature
            amountSent := some pending.2
            error := none } := by
  unfold fanOutSettle at h ⊢
  cases hcall : env.performTransfer position (fanOutArgs key pending) with
  | ok signature => exact ⟨signature, rfl⟩
  | error message => simp [hcall, hasSignature, truthy] at h

/-- No value returned by a fan-in callback has an `amountSent` property. -/
theorem fanInItem_amountSent (env : Env) (recipientAddress : String) (r F p : JsNum)
    (position : ℕ) (wallet : Wallet) (entry : Entry)
    (h : fanInItem env recipientAddress r F p position wallet = some entry) :
    entry.amountSent = none := by
  unfold fanInItem at h
  cases hb : env.getBalance wallet.publicKey with
  | error message =>
    simp only [hb, Option.some.injEq] at h
    rw [← h]
    rfl
  | ok b =>
    simp only [hb] at h
    cases hl : lamportsToTransfer r F p (.fin b) with
    | none => simp [hl] at h
    | some amount =>
      simp only [hl] at h
      cases ht : env.performTransfer position
          { senderSecretKey := wallet.secretKey, recipientAddress := recipientAddress,
            amount := amount } with
      | ok signature =>
        simp only [ht, Option.some.injEq] at h
        rw [← h]
      | error message =>
        simp only [ht, Option.some.injEq] at h
        rw [← h]
        rfl

/-- C16, the code at the failing input: in the sample environment (every balance
10000000, reserve 890880) with fraction 0.5, `/transfer_many_to_one` sends 4552060
lamports from each of the three wallets, and the three entries of `transfers` carry the
source public key and the signature but no amount. -/
theorem fanIn_transfers_without_amount :
    (transferManyToOne (sampleEnv 10000000)
        { sub := some "u", recipientAddress := some "R", percentage := .number 0.5 }).response
        = .ok "3 wallets successfully transferred funds."
            [ { masterPublicKey := none, recipient := none, publicKey := some "M",
                signature := some "sig", amountSent := none, error := none },
              { masterPublicKey := none, recipient := none, publicKey := some "A",
                signature := some "sig", amountSent := none, error := none },
              { masterPublicKey := none, recipient := none, publicKey := some "B",
                signature := some "sig", amountSent := none, error := none } ]
            [] ∧
      transferAmounts (transferManyToOne (sampleEnv 10000000)
        { sub := some "u", recipientAddress := some "R", percentage := .number 0.5 }).log
        = [.fin 4552060, .fin 4552060, .fin 4552060] := by
  have hfloor : ⌊(((10000000 : ℕ) : ℚ) - (890880 : ℕ) - 5000) * 0.5⌋ = 4552060 := by
    norm_num [Int.floor_eq_iff]
  have hl : lamportsToTransfer (.fin (890880 : ℕ)) fanInTransactionFee (.fin 0.5)
      (.fin (10000000 : ℕ)) = some (.fin 4552060) := by
    rw [fanInTransactionFee, lamportsToTransfer_fin, hfloor,
      if_pos ⟨by norm_num, by norm_num⟩]
    norm_num
  have hitem : ∀ (k : ℕ) (wallet : Wallet),
      fanInItem (sampleEnv 10000000) "R" (.fin (890880 : ℕ)) fanInTransactionFee (.fin 0.5)
          k wallet
        = some { masterPublicKey := none, recipient := none,
                 publicKey := some wallet.publicKey, signature := some "sig",
                 amountSent := none, error := none } := by
    intro k wallet
    simp only [fanInItem, sampleEnv, hl]
  have hcall : ∀ wallet : Wallet,
      fanInCall (sampleEnv 10000000) "R" (.fin (890880 : ℕ)) fanInTransactionFee (.fin 0.5)
          wallet
        = some { senderSecretKey := wallet.secretKey, recipientAddress := "R",
                 amount := .fin 4552060 } := by
    intro wallet
    simp only [fanInCall, sampleEnv, hl, Option.map_some']
  have hfind : find (sampleEnv 10000000).store "u" = sampleWallets := by decide
  have hresp := transferManyToOne_response (sampleEnv 10000000) "u" "R" 0.5 890880
    (by decide) (by decide) (by norm_num) (by norm_num) (by decide) rfl
  rw [hfind] at hresp
  constructor
  · rw [hresp.1]
    simp only [sampleWallets, mapFrom, hitem, List.filterMap_cons, id, List.filterMap_nil]
    decide
  · rw [transferAmounts_eq_map, hresp.2]
    simp only [sampleWallets, List.filterMap_cons, hcall, List.filterMap_nil, List.map_cons,
      List.map_nil]

/-! ## Order of the results -/

theorem getElem?_mapFrom (f : ℕ → α → β) (k : ℕ) (xs : List α) (i : ℕ) :
    (mapFrom f k xs)[i]? = xs[i]?.map (f (k + i)) := by
  induction xs generalizing k i with
  | nil => simp [mapFrom]
  | cons x xs ih =>
    cases i with
    | zero => simp [mapFrom]
    | succ i =>
      have hk : k + 1 + i = k + (i + 1) := by omega
      simp only [mapFrom, List.getElem?_cons_succ, ih, hk]

theorem settleStep_length (f : ℕ → α → β) (k : ℕ) (pending : List α)
    (slots : List (Option β)) (index : ℕ) :
    (settleStep f k pending slots index).length = slots.length := by
  unfold settleStep
  cases pending[index]? <;> simp

theorem getElem?_settleStep (f : ℕ → α → β) (k : ℕ) (pending : List α)
    (slots : List (Option β)) (hlen : slots.length = pending.length) (a i : ℕ) :
    (settleStep f k pending slots a)[i]?
      = if a = i then pending[i]?.map (fun x => some (f (k + i) x)) else slots[i]? := by
  unfold settleStep
  by_cases hai : a = i
  · subst hai
    rw [if_pos rfl]
    cases hp : pending[a]? with
    | none =>
      have hge : pending.length ≤ a := by
        by_contra hlt
        rw [List.getElem?_eq_getElem (by omega)] at hp
        exact Option.noConfusion hp
      simp only [Option.map_none']
      exact List.getElem?_eq_none (by omega)
    | some x =>
      have hlt : a < pending.length := by
        by_contra hge
        rw [List.getElem?_eq_none (by omega)] at hp
        exact Option.noConfusion hp
      simp only [Option.map_some', List.getElem?_set, if_true, hlen, hlt]
  · rw [if_neg hai]
    cases pending[a]? with
    | none => rfl
    | some x => exact List.getElem?_set_ne hai

theorem getElem?_foldl_settleStep (f : ℕ → α → β) (k : ℕ) (pending : List α) (order : List ℕ)
    (slots : List (Option β)) (hlen : slots.length = pending.length) (i : ℕ) :
    (order.foldl (settleStep f k pending) slots)[i]?
      = if i ∈ order then pending[i]?.map (fun x => some (f (k + i) x)) else slots[i]? := by
  induction order generalizing slots with
  | nil => simp
  | cons a order ih =>
    rw [List.foldl_cons, ih _ (by rw [settleStep_length, hlen]),
      getElem?_settleStep f k pending slots hlen]
    by_cases h1 : i ∈ order
    · simp [h1]
    · by_cases h2 : a = i
      · simp [h2]
      · have h3 : ¬ i = a := fun h => h2 h.symm
        simp [h1, h2, h3]

theorem promiseAll_map_some (vs : List β) : promiseAll (vs.map some) = some vs := by
  induction vs with
  | nil => rfl
  | cons v vs ih => simp [promiseAll, ih]

/-- Whatever the order in which the calls of a batch settle, provided each of them does,
`Promise.all` resolves with the callbacks' values in index order: the list that
`processBatch` pushes onto `transferResults`. -/
theorem promiseAll_settleInOrder (f : ℕ → α → β) (k : ℕ) (pending : List α) (order : List ℕ)
    (hall : ∀ i, i < pending.length → i ∈ order) :
    promiseAll (settleInOrder f k pending order) = some (mapFrom f k pending) := by
  have hslots : settleInOrder f k pending order = (mapFrom f k pending).map some := by
    apply List.ext_getElem?
    intro i
    rw [settleInOrder, getElem?_foldl_settleStep f k pending order _ (by simp),
      List.getElem?_map, getElem?_mapFrom]
    by_cases hi : i < pending.length
    · rw [if_pos (hall i hi)]
      cases pending[i]? <;> rfl
    · have hnone : pending[i]? = none := List.getElem?_eq_none (by omega)
      have hrep : (List.replicate pending.length (none : Option β))[i]? = none :=
        List.getElem?_eq_none (by simp; omega)
      rw [hnone, hrep]
      simp
  rw [hslots, promiseAll_map_some]

theorem promiseAll_eq_none_of_empty_slot (slots : List (Option β)) (i : ℕ)
    (h : slots[i]? = some none) : promiseAll slots = none := by
  induction slots generalizing i with
  | nil => simp at h
  | cons s slots ih =>
    cases s with
    | none => rfl
    | some v =>
      cases i with
      | zero => simp at h
      | succ i =>
        simp only [List.getElem?_cons_succ] at h
        simp [promiseAll, ih i h]

/-- While some call of the batch has not settled, `Promise.all` has not resolved. -/
theorem promiseAll_settleInOrder_pending (f : ℕ → α → β) (k : ℕ) (pending : List α)
    (order : List ℕ) (i : ℕ) (hi : i < pending.length) (hnot : i ∉ order) :
    promiseAll (settleInOrder f k pending order) = none := by
  apply promiseAll_eq_none_of_empty_slot _ i
  rw [settleInOrder, getElem?_foldl_settleStep f k pending order _ (by simp), if_neg hnot]
  exact List.getElem?_replicate_of_lt hi

theorem recipients_sublist (env : Env) (masterPublicKey key : String) (k : ℕ)
    (pending : List (Wallet × JsNum)) :
    (((mapFrom (fanOutSettle env masterPublicKey key) k pending).filter hasSignature).map
        Entry.recipient).Sublist
      (pending.map (fun p => some p.1.publicKey)) := by
  induction pending generalizing k with
  | nil => simp [mapFrom]
  | cons p pending ih =>
    simp only [mapFrom, List.map_cons]
    by_cases hsig : hasSignature (fanOutSettle env masterPublicKey key k p) = true
    · obtain ⟨signature, hentry⟩ := fanOutSettle_fields env masterPublicKey key k p hsig
      rw [List.filter_cons_of_pos hsig, List.map_cons]
      have hrec : (fanOutSettle env masterPublicKey key k p).recipient
          = some p.1.publicKey := by rw [hentry]
      rw [hrec]
      exact List.Sublist.cons₂ _ (ih (k + 1))
    · rw [List.filter_cons_of_neg hsig]
      exact List.Sublist.cons _ (ih (k + 1))

/-- C18. In `/transfer_one_to_many` the result of each batch is the list of the callbacks'
values in index order whatever the order in which the executor calls settle (provided
each settles), and the accumulated `transferResults` has one entry per wallet, batch by
batch, in the order of the wallet list the store returned: its k-th entry is the value
of the callback of the k-th wallet. Hence the recipients of the returned `transfers`
form an order-preserving subsequence of the wallet list. -/
theorem fanOut_results_in_wallet_order (env : Env) (sub key masterPublicKey : String)
    (B : ℕ) (f : ℚ) (hauth : FanOutAuthorised env sub key masterPublicKey B) (hf0 : 0 < f)
    (hf1 : f ≤ 1) (hD : 2000000 < B * f - 5000) :
    (∀ (k : ℕ) (batch : List (Wallet × JsNum)) (order : List ℕ),
      (∀ i, i < batch.length → i ∈ order) →
      promiseAll (settleInOrder (fanOutSettle env masterPublicKey key) k batch order)
        = some (mapFrom (fanOutSettle env masterPublicKey key) k batch)) ∧
    ∃ pending : List (Wallet × JsNum),
      pending.map Prod.fst = find env.store sub ∧
      (distribute env masterPublicKey key (.fin ((B : ℚ) * f - 5000))
          (find env.store sub)).transferResults
        = mapFrom (fanOutSettle env masterPublicKey key) 0 pending ∧
      (∃ message failedTransfers,
        (transferOneToMany env
          { sub := some sub, masterWalletSecretKey := some key,
            percentage := .number f }).response
          = .ok message
              ((mapFrom (fanOutSettle env masterPublicKey key) 0 pending).filter hasSignature)
              failedTransfers) ∧
      (((mapFrom (fanOutSettle env masterPublicKey key) 0 pending).filter hasSignature).map
          Entry.recipient).Sublist
        ((find env.store sub).map (fun wallet => some wallet.publicKey)) := by
  refine ⟨fun k batch order hall => promiseAll_settleInOrder _ k batch order hall, ?_⟩
  have hloop := distribute_eq env masterPublicKey key (.fin ((B : ℚ) * f - 5000))
    (find env.store sub)
  have hwallets := dispatch_wallets
    (maxAmount (.fin ((B : ℚ) * f - 5000)) (find env.store sub).length) (find env.store sub)
    (.fin ((B : ℚ) * f - 5000))
  refine ⟨_, hwallets, hloop.2.1, ?_, ?_⟩
  · rw [transferOneToMany_run env sub key masterPublicKey B f hauth hf0 hf1 hD]
    show ∃ message failedTransfers, summary _ (distribute env masterPublicKey key _ _).transferResults = _
    rw [hloop.2.1]
    exact ⟨_, _, rfl⟩
  · have hsub := recipients_sublist env masterPublicKey key 0
      (dispatch (maxAmount (.fin ((B : ℚ) * f - 5000)) (find env.store sub).length)
        (find env.store sub) (.fin ((B : ℚ) * f - 5000))).1
    have hmap : (dispatch (maxAmount (.fin ((B : ℚ) * f - 5000)) (find env.store sub).length)
        (find env.store sub) (.fin ((B : ℚ) * f - 5000))).1.map (fun p => some p.1.publicKey)
        = (find env.store sub).map (fun wallet => some wallet.publicKey) := by
      conv_rhs => rw [← hwallets]
      rw [List.map_map]
      rfl
    rw [hmap] at hsub
    exact hsub

/-- Witness of C18: in the sample environment with every balance 10000000 and fraction 1,
the three calls of the batch settle in the order 2, 0, 1 and `Promise.all` still yields
the three entries in wallet order. -/
theorem fanOut_results_in_wallet_order_witness :
    promiseAll (settleInOrder (fanOutSettle (sampleEnv 10000000) "M" "m") 0
        [(⟨"u", "M", "m"⟩, .fin 5), (⟨"u", "A", "a"⟩, .fin 5), (⟨"u", "B", "b"⟩, .fin 5)]
        [2, 0, 1])
      = some (mapFrom (fanOutSettle (sampleEnv 10000000) "M" "m") 0
        [(⟨"u", "M", "m"⟩, .fin 5), (⟨"u", "A", "a"⟩, .fin 5), (⟨"u", "B", "b"⟩, .fin 5)]) :=
  (fanOut_results_in_wallet_order (sampleEnv 10000000) "u" "m" "M" 10000000 1
    (sampleEnv_authorised 10000000) (by norm_num) (by norm_num) (by norm_num)).1 0
    [(⟨"u", "M", "m"⟩, .fin 5), (⟨"u", "A", "a"⟩, .fin 5), (⟨"u", "B", "b"⟩, .fin 5)]
    [2, 0, 1] (by decide)

/-! ## The sender of every executor call -/

theorem transfer_sender (env : Env) (body : TransferBody) (args : TransferArgs)
    (hargs : args ∈ transferCalls (transfer env body).log) :
    ∃ (sub key publicKey : String) (w : Wallet),
      body.sub = some sub ∧ body.senderSecretKey = some key ∧
      args.senderSecretKey = key ∧ env.publicKeyOf key = .ok publicKey ∧
      findOne env.store publicKey sub = some w := by
  obtain ⟨sub, key, rcp, amount⟩ := body
  unfold transfer at hargs
  simp only [] at hargs
  split at hargs
  · simp [transferCalls] at hargs
  · cases sub with
    | none => simp [truthy] at *
    | some sub =>
      cases key with
      | none => simp [truthy] at *
      | some key =>
        simp only [Option.getD_some] at hargs
        cases hpk : env.publicKeyOf key with
        | error message => simp [hpk, transferCalls] at hargs
        | ok publicKey =>
          simp only [hpk] at hargs
          cases hfo : findOne env.store publicKey sub with
          | none => simp [hfo, transferCalls] at hargs
          | some w =>
            simp only [hfo] at hargs
            refine ⟨sub, key, publicKey, w, rfl, rfl, ?_, hpk, hfo⟩
            split at hargs <;>
              · simp only [transferCalls, List.mem_singleton] at hargs
                rw [hargs]

theorem transferOneToMany_sender (env : Env) (body : FanOutBody) (args : TransferArgs)
    (hargs : args ∈ transferCalls (transferOneToMany env body).log) :
    ∃ (sub key publicKey : String) (w : Wallet),
      body.sub = some sub ∧ body.masterWalletSecretKey = some key ∧
      args.senderSecretKey = key ∧ env.publicKeyOf key = .ok publicKey ∧
      findOne env.store publicKey sub = some w := by
  obtain ⟨sub, key, percentage⟩ := body
  unfold transferOneToMany at hargs
  simp only [] at hargs
  split at hargs
  · simp [transferCalls] at hargs
  · cases sub with
    | none => simp [truthy] at *
    | some sub =>
      cases key with
      | none => simp [truthy] at *
      | some key =>
        simp only [Option.getD_some] at hargs
        cases hpk : env.publicKeyOf key with
        | error message => simp [hpk, transferCalls] at hargs
        | ok publicKey =>
          simp only [hpk] at hargs
          cases hfo : findOne env.store publicKey sub with
          | none => simp [hfo, transferCalls] at hargs
          | some w =>
            simp only [hfo] at hargs
            refine ⟨sub, key, publicKey, w, rfl, rfl, ?_, hpk, hfo⟩
            cases hbal : env.getBalance publicKey with
            | error message => simp [hbal, transferCalls] at hargs
            | ok masterBalance =>
              simp only [hbal] at hargs
              split at hargs
              · simp [transferCalls] at hargs
              · split at hargs
                · simp [transferCalls] at hargs
                · rw [transferCalls_cons_getBalance,
                    (distribute_eq env publicKey key _ _).2.2, List.mem_map] at hargs
                  obtain ⟨pending, _, hp⟩ := hargs
                  rw [← hp]
                  rfl

theorem transferManyToOne_sender (env : Env) (body : FanInBody) (args : TransferArgs)
    (hargs : args ∈ transferCalls (transferManyToOne env body).log) :
    ∃ (sub : String) (w : Wallet),
      body.sub = some sub ∧ w ∈ find env.store sub ∧ args.senderSecretKey = w.secretKey := by
  obtain ⟨sub, rcp, percentage⟩ := body
  unfold transferManyToOne at hargs
  simp only [] at hargs
  split at hargs
  · simp [transferCalls] at hargs
  · cases sub with
    | none => simp [truthy] at *
    | some sub =>
      simp only [Option.getD_some] at hargs
      split at hargs
      · simp [transferCalls] at hargs
      · cases hrent : env.getMinimumBalanceForRentExemption with
        | error message => simp [hrent, transferCalls] at hargs
        | ok r =>
          simp only [hrent] at hargs
          rw [transferCalls_cons_rent, (collect_eq env _ _ _ _ _).2.1,
            List.mem_filterMap] at hargs
          obtain ⟨w, hw, hcall⟩ := hargs
          refine ⟨sub, w, rfl, hw, ?_⟩
          unfold fanInCall at hcall
          cases hb : env.getBalance w.publicKey with
          | error message => simp [hb] at hcall
          | ok b =>
            simp only [hb, Option.map_eq_some'] at hcall
            obtain ⟨amount, _, hargs'⟩ := hcall
            rw [← hargs']

theorem findOne_eq_none_of_not_stored (store : List Wallet) (publicKey sub : String)
    (h : ∀ w ∈ store, ¬ (w.publicKey = publicKey ∧ w.sub = sub)) :
    findOne store publicKey sub = none := by
  rw [findOne, List.find?_eq_none]
  intro w hw
  simpa using h w hw

/-- C20. For every request body in which `wallet_quantity` is a number, positive integers
included, `/create_many` answers 400 'Invalid wallet_quantity.' without creating or
inserting any wallet: the destructuring of the number leaves `sub` and `wallet_quantity`
undefined, and `!wallet_quantity` holds. -/
theorem createMany_number_rejected (env : CreateEnv) (q : ℚ) (tokenMintAddress : Option String) :
    (QuantityField.number q).destructure = some (none, .undefined) ∧
      createMany env { wallet_quantity := .number q, tokenMintAddress := tokenMintAddress }
        = { response := .error 400 "Invalid wallet_quantity.", log := [] } := by
  constructor
  · rfl
  · simp [createMany, QuantityField.destructure, JsValue.truthy]

/-- The validation of `/create_many` is passed by bodies of another shape: when
`wallet_quantity` is the object `{ sub: "u", wallet_quantity: 2 }` two wallets are created
and inserted. -/
theorem createMany_object_creates :
    createMany sampleCreateEnv
        { wallet_quantity := .object (some "u") (.number 2), tokenMintAddress := none }
      = { response := .created "2 wallets created and saved to the database." 2
          log := [ .sleep 0, .sleep 100,
                   .createWallet (some "u") USDC_MINT_ADDRESS,
                   .createWallet (some "u") USDC_MINT_ADDRESS,
                   .insertMany [ { sub := "u", publicKey := "P", secretKey := "s" },
                                 { sub := "u", publicKey := "P", secretKey := "s" } ] ] } := by
  have hcount : taskCount (JsValue.number 2).toNumber = 2 := by
    simp only [JsValue.toNumber, taskCount]
    have : ⌈(2 : ℚ)⌉ = 2 := by norm_num [Int.ceil_eq_iff]
    rw [this]
    rfl
  have htruthy : (JsValue.number 2).truthy = true := by
    simp [JsValue.truthy]
  have hle : JsNum.le (JsValue.number 2).toNumber (.fin 0) = false := by
    simp [JsValue.toNumber]
  simp only [createMany, QuantityField.destructure, htruthy, hle, hcount]
  decide

/-! ## Executor calls in flight -/

theorem Scheduler.initial_ordered (first : Phase) (length : ℕ) :
    (Scheduler.initial first length).Ordered length := by
  refine ⟨rfl, ?_, ?_⟩
  · intro p hp
    exact absurd hp (Nat.not_lt_zero p)
  · intro p hp
    simp only [Scheduler.initial, startBatch]
    rw [if_neg]
    intro hcon
    omega

theorem Scheduler.batchSettled_spec (length : ℕ) (s : Scheduler)
    (h : s.batchSettled length = true) (p : ℕ) (h1 : s.i ≤ p) (h2 : p < s.i + batchSize)
    (h3 : p < length) : s.phase p = .settled := by
  simp only [Scheduler.batchSettled, List.all_eq_true, List.mem_range, Bool.or_eq_true,
    decide_eq_true_eq] at h
  have hp := h (p - s.i) (by omega)
  have heq : s.i + (p - s.i) = p := by omega
  rw [heq] at hp
  rcases hp with hp | hp
  · omega
  · exact hp

theorem Scheduler.step_ordered (first : Phase) (callsTransfer : ℕ → Bool) (length : ℕ)
    (s : Scheduler) (p : ℕ) (h : s.Ordered length) :
    (Scheduler.step first callsTransfer length s p).Ordered length := by
  obtain ⟨hmod, hbefore, hafter⟩ := h
  have hupd_before : ∀ q, q < s.i → q < length →
      Function.update s.phase p ((s.phase p).next (callsTransfer p)) q = .settled := by
    intro q hq hlen
    by_cases hqp : q = p
    · subst hqp
      rw [Function.update_same, hbefore q hq hlen]
      rfl
    · rw [Function.update_noteq hqp]
      exact hbefore q hq hlen
  have hupd_after : ∀ q, s.i + batchSize ≤ q ∨ length ≤ q →
      Function.update s.phase p ((s.phase p).next (callsTransfer p)) q = .notStarted := by
    intro q hq
    by_cases hqp : q = p
    · subst hqp
      rw [Function.update_same, hafter q hq]
      rfl
    · rw [Function.update_noteq hqp]
      exact hafter q hq
  have hbs : batchSize = 10 := rfl
  unfold Scheduler.step
  by_cases hrun : s.i < length
  · simp only [hrun, if_true]
    split
    · rename_i hsettled
      refine ⟨?_, ?_, ?_⟩
      · show (s.i + batchSize) % batchSize = 0
        simp only [batchSize] at hmod ⊢
        omega
      · intro q hq hlen
        have hq1 : q < s.i + batchSize := hq
        show startBatch first length (s.i + batchSize) _ q = .settled
        simp only [startBatch]
        rw [if_neg (by omega)]
        by_cases hqi : q < s.i
        · exact hupd_before q hqi hlen
        · exact Scheduler.batchSettled_spec length _ hsettled q (by simpa using hqi) hq1 hlen
      · intro q hq
        have hq1 : s.i + batchSize + batchSize ≤ q ∨ length ≤ q := hq
        show startBatch first length (s.i + batchSize) _ q = .notStarted
        simp only [startBatch]
        rw [if_neg (by omega)]
        exact hupd_after q (by omega)
    · exact ⟨hmod, hupd_before, hupd_after⟩
  · simp only [hrun, if_false]
    exact ⟨hmod, hbefore, hafter⟩

theorem Scheduler.run_ordered (first : Phase) (callsTransfer : ℕ → Bool) (length : ℕ)
    (schedule : List ℕ) : (Scheduler.run first callsTransfer length schedule).Ordered length := by
  unfold Scheduler.run
  have hgen : ∀ (s : Scheduler), s.Ordered length →
      (schedule.foldl (Scheduler.step first callsTransfer length) s).Ordered length := by
    induction schedule with
    | nil => intro s hs; exact hs
    | cons p schedule ih =>
      intro s hs
      exact ih _ (Scheduler.step_ordered first callsTransfer length s p hs)
  exact hgen _ (Scheduler.initial_ordered first length)

theorem Scheduler.inFlight_le (length : ℕ) (s : Scheduler) (h : s.Ordered length) :
    s.inFlight length ≤ batchSize := by
  obtain ⟨_, hbefore, hafter⟩ := h
  have hnodup : ((List.range length).filter
      (fun p => decide (s.phase p = .transfer))).Nodup :=
    (List.nodup_range length).filter _
  have hsub : (List.range length).filter (fun p => decide (s.phase p = .transfer))
      ⊆ List.range' s.i batchSize := by
    intro p hp
    simp only [List.mem_filter, List.mem_range, decide_eq_true_eq] at hp
    rw [List.mem_range']
    have hbs : batchSize = 10 := rfl
    refine ⟨p - s.i, ?_, ?_⟩
    · by_contra hcon
      have hns := hafter p (Or.inl (by omega))
      rw [hp.2] at hns
      exact Phase.noConfusion hns
    · have hge : s.i ≤ p := by
        by_contra hcon
        have hst := hbefore p (by omega) hp.1
        rw [hp.2] at hst
        exact Phase.noConfusion hst
      omega
  have hle := (List.subperm_of_subset hnodup hsub).length_le
  simpa [Scheduler.inFlight] using hle

theorem Scheduler.earlier_batch_settled (length : ℕ) (s : Scheduler) (h : s.Ordered length)
    (p q : ℕ) (hpq : p / batchSize < q / batchSize) (hq : s.phase q ≠ .notStarted) :
    s.phase p = .settled := by
  obtain ⟨hmod, hbefore, hafter⟩ := h
  have hq1 : q < s.i + batchSize := by
    by_contra hcon
    exact hq (hafter q (Or.inl (by omega)))
  have hq2 : q < length := by
    by_contra hcon
    exact hq (hafter q (Or.inr (by omega)))
  simp only [batchSize] at hmod hpq hq1
  apply hbefore p <;> omega

/-- C11. In every state that the batch scheduler of `/transfer_one_to_many` and of
`/transfer_many_to_one` reaches, whatever the order in which the awaited calls settle, at
most `batchSize = 10` executor calls are in flight, and as soon as the callback of a
wallet of a later batch has started, every callback of an earlier batch has returned (the
wallet at position `p` is in batch `p / 10`). -/
theorem inFlight_le_batchSize (env : Env) (recipientAddress : String) (r F p : JsNum)
    (wallets : List Wallet) (schedule : List ℕ) :
    (fanOutScheduler wallets schedule).inFlight wallets.length ≤ 10 ∧
      (fanInScheduler env recipientAddress r F p wallets schedule).inFlight wallets.length
        ≤ 10 ∧
      (∀ a b, a / 10 < b / 10 →
        (fanOutScheduler wallets schedule).phase b ≠ .notStarted →
        (fanOutScheduler wallets schedule).phase a = .settled) ∧
      (∀ a b, a / 10 < b / 10 →
        (fanInScheduler env recipientAddress r F p wallets schedule).phase b ≠ .notStarted →
        (fanInScheduler env recipientAddress r F p wallets schedule).phase a = .settled) := by
  have hout : (fanOutScheduler wallets schedule).Ordered wallets.length :=
    Scheduler.run_ordered _ _ _ _
  have hin : (fanInScheduler env recipientAddress r F p wallets schedule).Ordered
      wallets.length := Scheduler.run_ordered _ _ _ _
  exact ⟨Scheduler.inFlight_le _ _ hout, Scheduler.inFlight_le _ _ hin,
    fun a b hab hb => Scheduler.earlier_batch_settled _ _ hout a b hab hb,
    fun a b hab hb => Scheduler.earlier_batch_settled _ _ hin a b hab hb⟩

/-- Witness of C11: with 12 wallets the fan-out scheduler starts with 10 calls in flight;
once the calls of positions 0 to 9 have settled the loop variable is 10 and the 2 calls
of the second batch are in flight. -/
theorem inFlight_le_batchSize_witness :
    (fanOutScheduler (List.replicate 12 ⟨"u", "A", "a"⟩) []).inFlight 12 = 10 ∧
      (fanOutScheduler (List.replicate 12 ⟨"u", "A", "a"⟩) (List.range 9)).i = 0 ∧
      (fanOutScheduler (List.replicate 12 ⟨"u", "A", "a"⟩) (List.range 10)).i = 10 ∧
      (fanOutScheduler (List.replicate 12 ⟨"u", "A", "a"⟩) (List.range 10)).inFlight 12 = 2 ∧
      (fanOutScheduler (List.replicate 12 ⟨"u", "A", "a"⟩) (List.range 10)).inFlight
          (List.replicate 12 (⟨"u", "A", "a"⟩ : Wallet)).length ≤ 10 :=
  ⟨by decide, by decide, by decide, by decide,
    (inFlight_le_batchSize (sampleEnv 0) "R" (.fin 0) (.fin 0) (.fin 0)
      (List.replicate 12 ⟨"u", "A", "a"⟩) (List.range 10)).1⟩

end Pumpbot
